import Mathlib

/-! Verification of the configuration subsystem of the Epoch init system
    (src/src/config.c) against its natural-language specification.

    Shallow embedding conventions:
    * the intrusive doubly-linked lists with a trailing sentinel node
      (object table, per-object runlevel list, priority-alias list,
      runlevel-inheritance list) are modelled as plain Lean lists of their
      real, non-sentinel entries; the C iteration idiom
      "for (; W->Next != NULL; W = W->Next)" visits exactly those entries;
    * C strings are Lean String where only equality matters, and List Char
      where the byte-level scanning of the code matters;
    * unsigned long / int counters are Nat (none of the verified paths
      depends on machine overflow);
    * file contents are List Char; I/O errors (stat/fopen failing) are out
      of scope, the functions are modelled on the bytes they read. -/

namespace Epoch

/-- Three-valued result type rStatus of the C code (FAILURE = 0 is falsy). -/
inductive rStatus where
  | FAILURE
  | WARNING
  | SUCCESS
deriving DecidableEq

/-- Stop modes from epoch.h: STOP_NONE, STOP_COMMAND, STOP_PID, STOP_PIDFILE. -/
inductive StopMode where
  | stopNone
  | stopCommand
  | stopPid
  | stopPidfile
deriving DecidableEq

/-- Linux signal numbers from signal.h, as used by the TERMSIGNAL parser. -/
def SIGHUP : Nat := 1

def SIGINT : Nat := 2

def SIGQUIT : Nat := 3

def SIGABRT : Nat := 6

def SIGKILL : Nat := 9

def SIGUSR1 : Nat := 10

def SIGUSR2 : Nat := 12

def SIGTERM : Nat := 15

/-- One object of the object table: struct ObjTable of epoch.h, with the
    scheduling fields of ObjectOptions inlined (Opts.*). The Enabled field is
    the C tri-state stored in a char: 0 = false, 1 = true, 2 = unset. -/
structure EpochObject where
  objectID : String
  objectDescription : String
  objectStartCommand : String
  objectStopCommand : String
  objectReloadCommand : String
  objectPIDFile : String
  objectStartPriority : Nat
  objectStopPriority : Nat
  stopMode : StopMode
  termSignal : Nat
  enabled : Nat
  objectRunlevels : List String
  started : Bool
  objectPID : Nat
  haltCmdOnly : Bool
  canStop : Bool
  rawDescription : Bool
  isService : Bool
  autoRestart : Bool
  emulNoWait : Bool
  forceShell : Bool
deriving DecidableEq

/-- Field defaults installed by AddObjectToTable (config.c lines 1474-1497). -/
def addObjectDefaults (id : String) : EpochObject :=
  { objectID := id
    objectDescription := ""
    objectStartCommand := ""
    objectStopCommand := ""
    objectReloadCommand := ""
    objectPIDFile := ""
    objectStartPriority := 0
    objectStopPriority := 0
    stopMode := StopMode.stopNone
    termSignal := SIGTERM
    enabled := 2
    objectRunlevels := []
    started := false
    objectPID := 0
    haltCmdOnly := false
    canStop := true
    rawDescription := false
    isService := false
    autoRestart := false
    emulNoWait := false
    forceShell := false }

/-- RLInheritance_Check (config.c lines 1913-1928): scan the stored relation
    for a literally equal (Inheriter, Inherited) pair. -/
def rlInheritanceCheck (rel : List (String × String)) (inheriter inherited : String) : Bool :=
  rel.any (fun p => p.1 == inheriter && p.2 == inherited)

/-- ObjRL_CheckRunlevel (config.c lines 1697-1728). An empty runlevel list
    returns false. With CountInherited, a first pass sets RetVal truthy when
    some stored runlevel of the object is inherited by InRL; a second pass
    returns true on direct membership; otherwise RetVal is returned. -/
def objRLCheckRunlevel (rel : List (String × String)) (inRL : String) (obj : EpochObject)
    (countInherited : Bool) : Bool :=
  match obj.objectRunlevels with
  | [] => false
  | rls =>
    let retVal := countInherited && rls.any (fun r => rlInheritanceCheck rel inRL r)
    rls.any (fun r => r == inRL) || retVal

/-- GetObjectByPriority (config.c lines 1943-1964): first object in table
    order passing the filter. With a non-null runlevel the filter is
    (WantStartPriority || !HaltCmdOnly) && ObjRL_CheckRunlevel(rl, w, true),
    conjoined with equality of the phase priority. -/
def getObjectByPriority (rel : List (String × String)) (tbl : List EpochObject)
    (objectRunlevel : Option String) (wantStartPriority : Bool) (objectPriority : Nat) :
    Option EpochObject :=
  tbl.find? (fun w =>
    (match objectRunlevel with
     | none => true
     | some rl => (wantStartPriority || !w.haltCmdOnly) && objRLCheckRunlevel rel rl w true) &&
    ((if wantStartPriority then w.objectStartPriority else w.objectStopPriority) == objectPriority))

/-- LookupObjectInTable (config.c lines 1647-1665): first object with the id. -/
def lookupObjectInTable (tbl : List EpochObject) (id : String) : Option EpochObject :=
  tbl.find? (fun w => w.objectID == id)

/-- PriorityAlias_Add (config.c lines 1825-1853): appends, unless an entry
    with the same alias already exists, in which case it returns unchanged. -/
def priorityAliasAdd (aliases : List (String × Nat)) (al : String) (target : Nat) :
    List (String × Nat) :=
  if aliases.any (fun p => p.1 == al) then aliases else aliases ++ [(al, target)]

/-- PriorityAlias_Lookup (config.c lines 1872-1887): first matching entry's
    target, and 0 when nothing is found. -/
def priorityAliasLookup (aliases : List (String × Nat)) (al : String) : Nat :=
  match aliases.find? (fun p => p.1 == al) with
  | some p => p.2
  | none => 0

/-- Modelled from the spec: AllNumeric lives in epoch's utility code, outside
    src/. Per the spec a priority value is either "an all-digits integer" or
    an alias token, so AllNumeric holds exactly on nonempty all-digit strings. -/
def allNumericL (l : List Char) : Bool :=
  !l.isEmpty && l.all (fun c => c.isDigit)

/-- AllNumeric on a String value. -/
def allNumeric (s : String) : Bool :=
  allNumericL s.data

/-- atoi on the all-digit strings the parser feeds it. -/
def atoiL (l : List Char) : Nat :=
  l.foldl (fun n c => n * 10 + (c.toNat - 48)) 0

/-- atoi on a String value. -/
def atoiNat (s : String) : Nat :=
  atoiL s.data

/-- The ObjectStartPriority / ObjectStopPriority value handler
    (config.c lines 971-992 and 1009-1031, two textually identical blocks).
    Returns the new priority together with whether a CONFIG_EBADVAL warning
    was issued; on a bad value the current (default 0) priority is kept. -/
def parsePriorityValue (aliases : List (String × Nat)) (cur : Nat) (v : String) : Nat × Bool :=
  if allNumeric v = true then (atoiNat v, false)
  else
    let tmpTarget := priorityAliasLookup aliases v
    if tmpTarget = 0 then (cur, true) else (tmpTarget, false)

/-- One token of an ObjectOptions line (config.c lines 714-830). The token is
    compared with strcmp against the plain options and with strncmp against
    the TERMSIGNAL= prefix; unknown tokens and bad TERMSIGNAL payloads only
    warn and leave the object unchanged. -/
def applyOptionToken (shellEnabled : Bool) (o : EpochObject) (tok : List Char) : EpochObject :=
  if tok = "NOWAIT".data then { o with emulNoWait := true }
  else if tok = "HALTONLY".data then { o with started := true, canStop := false, haltCmdOnly := true }
  else if tok = "PERSISTENT".data then { o with canStop := false }
  else if tok = "RAWDESCRIPTION".data then { o with rawDescription := true }
  else if tok = "SERVICE".data then { o with isService := true }
  else if tok = "AUTORESTART".data then { o with autoRestart := true }
  else if tok = "FORCESHELL".data then
    (if shellEnabled then { o with forceShell := true } else o)
  else if ("TERMSIGNAL".data).isPrefixOf tok then
    match tok.drop ("TERMSIGNAL".data).length with
    | [] => o
    | c :: rest =>
      if c ≠ '=' then o
      else if rest = [] then o
      else if allNumericL rest then { o with termSignal := atoiL rest }
      else if rest = "SIGTERM".data then { o with termSignal := SIGTERM }
      else if rest = "SIGKILL".data then { o with termSignal := SIGKILL }
      else if rest = "SIGHUP".data then { o with termSignal := SIGKILL }
      else if rest = "SIGINT".data then { o with termSignal := SIGINT }
      else if rest = "SIGABRT".data then { o with termSignal := SIGABRT }
      else if rest = "SIGQUIT".data then { o with termSignal := SIGQUIT }
      else if rest = "SIGUSR1".data then { o with termSignal := SIGUSR1 }
      else if rest = "SIGUSR2".data then { o with termSignal := SIGUSR2 }
      else o
  else o

/-- The attribute keywords of InitConfig's dispatch ladder (config.c lines
    236-1089), in the order the if/else ladder tests them. -/
def attrKeywords : List (List Char) :=
  ["DisableCAD".data, "BlankLogOnBoot".data, "ShellEnabled".data, "EnableLogging".data,
   "RunlevelInherits".data, "DefinePriority".data, "AlignStatusReports".data,
   "MountVirtual".data, "BootBannerText".data, "BootBannerColor".data,
   "DefaultRunlevel".data, "Hostname".data, "ObjectID".data, "ObjectEnabled".data,
   "ObjectOptions".data, "ObjectDescription".data, "ObjectStartCommand".data,
   "ObjectReloadCommand".data, "ObjectStopCommand".data, "ObjectStartPriority".data,
   "ObjectStopPriority".data, "ObjectRunlevels".data]

/-- The dispatch decision of InitConfig on one line (after the leading
    whitespace skip of line 187): each ladder arm tests
    strncmp(Worker, keyword, strlen(keyword)), i.e. a prefix match; the first
    keyword that is a prefix of the line wins, none means the
    "Unidentified attribute" arm. -/
def dispatchAttribute (line : List Char) : Option (List Char) :=
  attrKeywords.find? (fun kw => kw.isPrefixOf line)

/-! Post-parse priority de-duplication, config.c lines 1095-1131. -/

/-- Index-aware map used to express one pass of the TWorker shift loop
    together with the preceding ++CurObj->...Priority, which only touch the
    node at each position independently. -/
def mapWithIndex (f : Nat → EpochObject → EpochObject) : Nat → List EpochObject → List EpochObject
  | _, [] => []
  | k, o :: rest => f k o :: mapWithIndex f (k + 1) rest

/-- The start-priority body of the double loop for one (ObjWorker, CurObj)
    position pair (i, j), config.c lines 1099-1113. When ObjWorker's start
    priority is non-zero, the nodes differ and CurObj's equals it, CurObj is
    incremented to t and every other node except ObjWorker with priority ≥ t
    is incremented (the TWorker loop, whose per-node updates are independent
    and where CurObj's priority stays t throughout). -/
def dedupPairStart (tbl : List EpochObject) (i j : Nat) : List EpochObject :=
  match tbl.get? i, tbl.get? j with
  | some oi, some oj =>
    if oi.objectStartPriority ≠ 0 ∧ i ≠ j ∧
        oj.objectStartPriority = oi.objectStartPriority then
      mapWithIndex (fun k o =>
        if k = j then { o with objectStartPriority := oj.objectStartPriority + 1 }
        else if oj.objectStartPriority + 1 ≤ o.objectStartPriority ∧ k ≠ i then
          { o with objectStartPriority := o.objectStartPriority + 1 }
        else o) 0 tbl
    else tbl
  | _, _ => tbl

/-- The stop-priority body for the pair (i, j), config.c lines 1115-1129;
    textually parallel to the start-priority body. -/
def dedupPairStop (tbl : List EpochObject) (i j : Nat) : List EpochObject :=
  match tbl.get? i, tbl.get? j with
  | some oi, some oj =>
    if oi.objectStopPriority ≠ 0 ∧ i ≠ j ∧
        oj.objectStopPriority = oi.objectStopPriority then
      mapWithIndex (fun k o =>
        if k = j then { o with objectStopPriority := oj.objectStopPriority + 1 }
        else if oj.objectStopPriority + 1 ≤ o.objectStopPriority ∧ k ≠ i then
          { o with objectStopPriority := o.objectStopPriority + 1 }
        else o) 0 tbl
    else tbl
  | _, _ => tbl

/-- One iteration of the inner loop body: the start block then the stop block. -/
def dedupStep (tbl : List EpochObject) (ij : Nat × Nat) : List EpochObject :=
  dedupPairStop (dedupPairStart tbl ij.1 ij.2) ij.1 ij.2

/-- The (ObjWorker, CurObj) position pairs in traversal order: ObjWorker
    outer, CurObj inner, both over the whole table. -/
def dedupPairs (n : Nat) : List (Nat × Nat) :=
  (List.range n).flatMap (fun i => (List.range n).map (fun j => (i, j)))

/-- The whole de-duplication pass of config.c lines 1095-1131. -/
def dedupPriorities (tbl : List EpochObject) : List EpochObject :=
  (dedupPairs tbl.length).foldl dedupStep tbl

/-- Start priority of the node at position k, if it exists. -/
def startPrioAt (tbl : List EpochObject) (k : Nat) : Option Nat :=
  (tbl.get? k).map (fun o => o.objectStartPriority)

/-- Stop priority of the node at position k, if it exists. -/
def stopPrioAt (tbl : List EpochObject) (k : Nat) : Option Nat :=
  (tbl.get? k).map (fun o => o.objectStopPriority)

/-! Transactional reload, config.c lines 1986-2107. -/

/-- The observable configuration state touched by ReloadConfig: the object
    table, the runlevel-inheritance relation, CurRunlevel, and the three
    globals it deliberately preserves across a reload. -/
structure ConfigState where
  objectTable : List EpochObject
  runlevelInheritance : List (String × String)
  curRunlevel : String
  enableLogging : Bool
  disableCAD : Bool
  alignStatusReports : Bool
deriving DecidableEq

/-- The inheritance-backup loop of ReloadConfig (config.c lines 2026-2040).
    The loop copies each source node into RLIWorker[1] but never advances
    RLIWorker[1] to the fresh node it allocates, so every iteration
    overwrites the same root node: the finished backup holds only the pair
    written last (and nothing when the relation was empty/NULL). -/
def rliBackup (rel : List (String × String)) : List (String × String) :=
  match rel.foldl (fun _ p => some p) (none : Option (String × String)) with
  | none => []
  | some p => [p]

/-- The merge loop of ReloadConfig's success path (config.c lines 2082-2093)
    for a single backup object: LookupObjectInTable finds the first new
    object with the same id and its Started and ObjectPID fields are
    overwritten with the backup's. -/
def updateFirst : List EpochObject → EpochObject → List EpochObject
  | [], _ => []
  | o :: rest, b =>
    if o.objectID = b.objectID then
      { o with started := b.started, objectPID := b.objectPID } :: rest
    else o :: updateFirst rest b

/-- The whole merge loop over the backup table. -/
def reloadMerge (backup newTbl : List EpochObject) : List EpochObject :=
  backup.foldl updateFirst newTbl

/-- ReloadConfig (config.c lines 1986-2107) as a state transformer. The
    re-parse (ShutdownConfig + InitConfig) is abstracted by its outcome:
    none for FAILURE, and some st for SUCCESS/WARNING where st is the state
    InitConfig left behind (including the global toggles the new file set).
    The function performs the backup before the parse, the restore on
    failure, the unconditional restore of the three preserved globals, and
    the runtime-status merge on success. ReloadConfig itself returns SUCCESS
    in the WARNING case as well (line 2106). -/
def reloadConfig (pre : ConfigState) (parsed : Option ConfigState) : rStatus × ConfigState :=
  let backupObjects := pre.objectTable
  let backupInherit := rliBackup pre.runlevelInheritance
  let runlevelBackup := pre.curRunlevel
  let globalTriple := (pre.enableLogging, pre.disableCAD, pre.alignStatusReports)
  match parsed with
  | none =>
    (rStatus.FAILURE,
      { objectTable := backupObjects
        runlevelInheritance := backupInherit
        curRunlevel := runlevelBackup
        enableLogging := globalTriple.1
        disableCAD := globalTriple.2.1
        alignStatusReports := globalTriple.2.2 })
  | some st =>
    (rStatus.SUCCESS,
      { objectTable := reloadMerge backupObjects st.objectTable
        runlevelInheritance := st.runlevelInheritance
        curRunlevel := st.curRunlevel
        enableLogging := globalTriple.1
        disableCAD := globalTriple.2.1
        alignStatusReports := globalTriple.2.2 })

/-! EditConfigValue, config.c lines 1254-1447, on the bytes of the file. -/

/-- The whitespace test of the editor's scans. -/
def isWsC (c : Char) : Bool :=
  c == ' ' || c == '\t'

/-- The separator-stop test: the editor's scans stop at space, tab or '='. -/
def isSepStopC (c : Char) : Bool :=
  c == ' ' || c == '\t' || c == '='

/-- First index at which needle occurs in hay: the strstr of the editor.
    strstr with an empty needle returns the haystack itself. -/
def strstrIdx : List Char → List Char → Option Nat
  | _, [] => some 0
  | [], _ :: _ => none
  | c :: rest, d :: ns =>
    if (d :: ns).isPrefixOf (c :: rest) then some 0
    else (strstrIdx rest (d :: ns)).map (fun k => k + 1)

/-- Split the buffer at newlines; mirrors the NextLine traversal except for
    the final empty piece after a terminating newline, which cLines drops. -/
def splitOnNl : List Char → List (List Char)
  | [] => [[]]
  | c :: rest =>
    if c = '\n' then [] :: splitOnNl rest
    else
      match splitOnNl rest with
      | [] => [[c]]
      | l :: ls => (c :: l) :: ls

/-- The lines the do-while/NextLine loop visits: NextLine returns NULL when
    the newline is the buffer's last byte, so a final empty piece is not
    visited. -/
def cLines (buf : List Char) : List (List Char) :=
  let ls := splitOnNl buf
  if ls.getLast? = some [] then ls.dropLast else ls

/-- The constant "ObjectID" keyword of the editor. -/
def kwObjectID : List Char :=
  "ObjectID".data

/-- One line of the editor's id scan (config.c lines 1302-1350). The line is
    copied without its newline; leading whitespace is skipped; non-ObjectID
    lines are passed over. On an ObjectID line the separator position and
    width are measured, a missing rest-of-line aborts the whole call with
    FAILURE, and a full-line match of the id records
    LineArm + Inc2 + NumWhiteSpaces + strlen(id) as the found offset (the C
    code measures Inc2 from the whitespace-skipped copy but adds it to the
    raw line pointer). off is the offset of the raw line start in the file. -/
def scanIdLine (idArg : List Char) (off : Nat) (line : List Char) (found : Option Nat) :
    Except Unit (Option Nat) :=
  let lw := line.dropWhile isWsC
  if kwObjectID.isPrefixOf lw then
    let inc2 := (lw.takeWhile (fun c => !isSepStopC c)).length
    let nws := if lw.get? inc2 = some '=' then 1
               else ((lw.drop inc2).takeWhile isWsC).length
    if lw.drop (inc2 + nws) = [] then Except.error ()
    else if lw.drop (inc2 + nws) = idArg then
      Except.ok (some (off + inc2 + nws + idArg.length))
    else Except.ok found
  else Except.ok found

/-- The id-scan loop over all visited lines, threading the running offset of
    each line start and the last match. -/
def scanLines (idArg : List Char) : List (List Char) → Nat → Option Nat → Except Unit (Option Nat)
  | [], _, found => Except.ok found
  | line :: rest, off, found =>
    match scanIdLine idArg off line found with
    | Except.error e => Except.error e
    | Except.ok found2 => scanLines idArg rest (off + line.length + 1) found2

/-- The attribute-replacement phase (config.c lines 1358-1446), given the
    offset found by the id scan. The search region is temporarily cut at the
    next "ObjectID" occurrence (the Stopper), the attribute is located with
    strstr and rejected when the byte before it is '#', the separator scan
    aborts on a missing separator, the full run of '=', space and tab bytes
    after the keyword is preserved verbatim, and the rebuilt file is
    half one ++ attribute ++ separator run ++ new value ++ rest-from-newline. -/
def editPhase2 (file : List Char) (attrArg valArg : List Char) (off : Nat) :
    rStatus × List Char :=
  let region := file.drop off
  let searchRegion := match strstrIdx region kwObjectID with
    | some s => region.take s
    | none => region
  match strstrIdx searchRegion attrArg with
  | none => (rStatus.FAILURE, file)
  | some p =>
    if file.get? (off + p - 1) = some '#' then (rStatus.FAILURE, file)
    else
      let tail1 := file.drop (off + p + 1)
      let i1 := (tail1.takeWhile (fun c => !isSepStopC c && c != '\n')).length
      match tail1.get? i1 with
      | none => (rStatus.FAILURE, file)
      | some c =>
        if c = '\n' then (rStatus.FAILURE, file)
        else
          let sepRun := (tail1.drop i1).takeWhile (fun d => d == '=' || isWsC d)
          let rest2 := (tail1.drop i1).dropWhile (fun d => d == '=' || isWsC d)
          let halfTwo := rest2.dropWhile (fun d => d != '\n')
          (rStatus.SUCCESS, file.take (off + p) ++ attrArg ++ sepRun ++ valArg ++ halfTwo)

/-- EditConfigValue (config.c lines 1254-1447) on the file bytes: the result
    status together with the on-disk contents after the call (unchanged
    whenever the function returns before the write at line 1439). The
    trailing-newline-erase loop at lines 1294-1299 starts at the NUL
    terminator and therefore never executes; it is omitted. -/
def editConfigValue (file : List Char) (idArg attrArg valArg : List Char) :
    rStatus × List Char :=
  if file = [] then (rStatus.FAILURE, file)
  else
    match scanLines idArg (cLines file) 0 none with
    | Except.error _ => (rStatus.FAILURE, file)
    | Except.ok none => (rStatus.FAILURE, file)
    | Except.ok (some off) => editPhase2 file attrArg valArg off

/-- The well-formed single-object file family used for the no-op edit
    theorem: an ObjectID line for id i, then one attribute line with keyword
    a, separator run sep and value v, with a terminating newline. -/
def mkConfFile (i a sep v : List Char) : List Char :=
  ("ObjectID ".data ++ i) ++ '\n' :: ((a ++ sep ++ v) ++ ['\n'])

/-! Concrete instances used by counterexamples and witnesses. -/

/-- An object whose only runlevel is "r", as left by ObjectRunlevels r. -/
def rlChainObj : EpochObject :=
  { addObjectDefaults "obj" with objectRunlevels := ["r"] }

/-- An object carrying the effects of the HALTONLY option (Started = true,
    CanStop = false, HaltCmdOnly = true) with both priorities 1 and
    runlevel "rl". -/
def haltOnlyObj : EpochObject :=
  { addObjectDefaults "halt" with
      started := true, canStop := false, haltCmdOnly := true,
      objectStartPriority := 1, objectStopPriority := 1, objectRunlevels := ["rl"] }

/-- A plain enabled service object in runlevel "default" with start
    priority 1. -/
def plainObj : EpochObject :=
  { addObjectDefaults "svc" with
      objectStartPriority := 1, objectRunlevels := ["default"],
      enabled := 1, objectStartCommand := "/bin/true" }

/-- A parsed table with a duplicated non-zero start priority, a duplicated
    non-zero stop priority, and zero priorities in both phases. -/
def dedupWitnessTable : List EpochObject :=
  [{ addObjectDefaults "a" with objectStartPriority := 3 },
   { addObjectDefaults "b" with objectStartPriority := 3, objectStopPriority := 5 },
   { addObjectDefaults "c" with objectStopPriority := 5 }]

/-- A pre-reload state: one started object with a PID, a two-pair
    inheritance relation, and all three preserved globals set to true. -/
def preReloadState : ConfigState :=
  { objectTable := [{ plainObj with started := true, objectPID := 42 }]
    runlevelInheritance := [("rescue", "default"), ("single", "default")]
    curRunlevel := "default"
    enableLogging := true
    disableCAD := true
    alignStatusReports := true }

/-- A freshly parsed state for a successful reload: the surviving id "svc"
    with default runtime fields, one new object, and all three globals
    toggled by the new file. -/
def newParsedState : ConfigState :=
  { objectTable := [{ plainObj with objectStartPriority := 2 }, addObjectDefaults "new"]
    runlevelInheritance := []
    curRunlevel := "default"
    enableLogging := false
    disableCAD := false
    alignStatusReports := false }

/-- The backup object of preReloadState. -/
def backupWitnessObj : EpochObject :=
  { plainObj with started := true, objectPID := 42 }

/-- The merged surviving object after the successful reload above. -/
def mergedWitnessObj : EpochObject :=
  { plainObj with objectStartPriority := 2, started := true, objectPID := 42 }

/-- A well-formed config file in which the ObjectEnabled keyword also occurs
    inside the ObjectDescription value of the same object. -/
def embeddedKeywordFile : List Char :=
  "ObjectID a\nObjectDescription ObjectEnabled q\nObjectEnabled true\n".data

/-- What EditConfigValue leaves on disk after the no-op edit of
    ObjectEnabled on embeddedKeywordFile: the description line was rewritten. -/
def embeddedKeywordResult : List Char :=
  "ObjectID a\nObjectDescription ObjectEnabled true\nObjectEnabled true\n".data

/-- The activity condition of the start-priority body. -/
def StartActive (tbl : List EpochObject) (i j : Nat) : Prop :=
  ∃ oi oj, tbl.get? i = some oi ∧ tbl.get? j = some oj ∧
    (oi.objectStartPriority ≠ 0 ∧ i ≠ j ∧ oj.objectStartPriority = oi.objectStartPriority)

/-- The activity condition of the stop-priority body. -/
def StopActive (tbl : List EpochObject) (i j : Nat) : Prop :=
  ∃ oi oj, tbl.get? i = some oi ∧ tbl.get? j = some oj ∧
    (oi.objectStopPriority ≠ 0 ∧ i ≠ j ∧ oj.objectStopPriority = oi.objectStopPriority)

/-! Theorems. General-purpose helper lemmas come first, then the claim
    theorems in claim order. -/

/-- Membership test of rlInheritanceCheck: true exactly on stored pairs. -/
theorem rlInheritanceCheck_iff (rel : List (String × String)) (a b : String) :
    rlInheritanceCheck rel a b = true ↔ (a, b) ∈ rel := by
  simp only [rlInheritanceCheck, List.any_eq_true, Bool.and_eq_true, beq_iff_eq]
  constructor
  · rintro ⟨p, hp, h1, h2⟩
    cases p
    simp only at h1 h2
    subst h1; subst h2
    exact hp
  · intro h
    exact ⟨(a, b), h, rfl, rfl⟩

/-- C5: with CountInherited, ObjRL_CheckRunlevel reports a match iff R is in
    the object's runlevel set or some stored runlevel r of the object has
    the pair (R, r) literally present in the relation; the relation is used
    for exactly one step, so the chain (R,S), (S,r) does not make R match an
    object whose only runlevel is r. -/
theorem objRLCheckRunlevel_spec :
    (∀ (rel : List (String × String)) (R : String) (obj : EpochObject),
      objRLCheckRunlevel rel R obj true = true ↔
        R ∈ obj.objectRunlevels ∨ ∃ r ∈ obj.objectRunlevels, (R, r) ∈ rel) ∧
    objRLCheckRunlevel [("R", "S"), ("S", "r")] "R" rlChainObj true = false := by
  constructor
  · intro rel R obj
    cases h : obj.objectRunlevels with
    | nil => simp [objRLCheckRunlevel, h]
    | cons x xs =>
      simp only [objRLCheckRunlevel, h, Bool.or_eq_true, Bool.and_eq_true,
        List.any_eq_true, beq_iff_eq, true_and]
      constructor
      · rintro (⟨r, hr, heq⟩ | ⟨r, hr, hc⟩)
        · exact Or.inl (heq ▸ hr)
        · exact Or.inr ⟨r, hr, (rlInheritanceCheck_iff rel R r).mp hc⟩
      · rintro (hR | ⟨r, hr, hc⟩)
        · exact Or.inl ⟨R, hR, rfl⟩
        · exact Or.inr ⟨r, hr, (rlInheritanceCheck_iff rel R r).mpr hc⟩
  · decide

/-- C3 counterexample: an object with the halt_only option, matching
    runlevel and priority 1 in both phases, is returned by
    GetObjectByPriority for the start phase and is not returned for the
    stop phase, the reverse of the claim. -/
theorem getObjectByPriority_haltonly_counterexample :
    getObjectByPriority [] [haltOnlyObj] (some "rl") true 1 = some haltOnlyObj ∧
    haltOnlyObj.haltCmdOnly = true ∧
    getObjectByPriority [] [haltOnlyObj] (some "rl") false 1 = none := by
  decide

/-- C3 amended: with a non-null runlevel, any object GetObjectByPriority
    returns has the requested priority in the requested phase and matches
    the runlevel counting inheritance, and an object with halt_only set is
    only ever returned for the start phase (halt_only objects are excluded
    from the stop phase). -/
theorem getObjectByPriority_spec (rel : List (String × String)) (tbl : List EpochObject)
    (rl : String) (ws : Bool) (prio : Nat) (o : EpochObject)
    (h : getObjectByPriority rel tbl (some rl) ws prio = some o) :
    (if ws then o.objectStartPriority else o.objectStopPriority) = prio ∧
    objRLCheckRunlevel rel rl o true = true ∧
    (o.haltCmdOnly = true → ws = true) := by
  have hp := List.find?_some h
  simp only [Bool.and_eq_true, Bool.or_eq_true, Bool.not_eq_eq_eq_not, beq_iff_eq] at hp
  obtain ⟨⟨h1, h2⟩, h3⟩ := hp
  refine ⟨h3, h2, fun hh => ?_⟩
  rcases h1 with h1 | h1
  · exact h1
  · rw [hh] at h1
    simp at h1

/-- C3 witness: the amended theorem applied to a plain object found for the
    start phase at priority 1 in runlevel "default". -/
theorem getObjectByPriority_spec_witness :
    (if true then plainObj.objectStartPriority else plainObj.objectStopPriority) = 1 ∧
    objRLCheckRunlevel [] "default" plainObj true = true ∧
    (plainObj.haltCmdOnly = true → true = true) :=
  getObjectByPriority_spec [] [plainObj] "default" true 1 plainObj (by decide)

/-- C9: the ObjectOptions token TERMSIGNAL=SIGHUP sets the object's
    term_signal to SIGKILL, which differs from SIGHUP. -/
theorem termsignal_sighup_maps_to_sigkill :
    (∀ (se : Bool) (o : EpochObject),
      (applyOptionToken se o ("TERMSIGNAL=SIGHUP".data)).termSignal = SIGKILL) ∧
    SIGKILL ≠ SIGHUP := by
  refine ⟨fun se o => rfl, by decide⟩

/-- Helper: find? skips a first block on which it is none. -/
theorem find?_eq_none_append {α : Type _} (l₁ l₂ : List α) (p : α → Bool)
    (h : l₁.find? p = none) : (l₁ ++ l₂).find? p = l₂.find? p := by
  induction l₁ with
  | nil => rfl
  | cons a rest ih =>
    cases hpa : p a with
    | true =>
      rw [List.find?_cons_of_pos _ hpa] at h
      exact absurd h (by simp)
    | false =>
      rw [List.find?_cons_of_neg _ (by simp [hpa])] at h
      rw [List.cons_append, List.find?_cons_of_neg _ (by simp [hpa])]
      exact ih h

/-- C10: a priority alias defined with target 0 is indistinguishable from an
    undefined alias at the parser's interface: the lookup returns 0 for
    both, and the priority-value handler issues the bad-value warning and
    keeps the current (default 0) priority in both cases. -/
theorem priorityAlias_zero_indistinguishable (as : List (String × Nat)) (A : String) (cur : Nat)
    (h1 : allNumeric A = false) (h2 : ∀ p ∈ as, p.1 ≠ A) :
    priorityAliasLookup (priorityAliasAdd as A 0) A = 0 ∧
    parsePriorityValue (priorityAliasAdd as A 0) cur A = (cur, true) ∧
    parsePriorityValue as cur A = (cur, true) := by
  have hnone : as.find? (fun p => p.1 == A) = none := by
    rw [List.find?_eq_none]
    intro p hp
    simp only [Bool.not_eq_true, beq_eq_false_iff_ne]
    exact h2 p hp
  have hadd : priorityAliasAdd as A 0 = as ++ [(A, 0)] := by
    unfold priorityAliasAdd
    rw [if_neg]
    simp only [List.any_eq_true, beq_iff_eq, not_exists]
    intro p hand
    exact h2 p hand.1 hand.2
  have hlookAdd : priorityAliasLookup (priorityAliasAdd as A 0) A = 0 := by
    rw [hadd]
    unfold priorityAliasLookup
    rw [find?_eq_none_append _ _ _ hnone]
    rw [List.find?_cons_of_pos _ (by simp)]
  have hlookAbsent : priorityAliasLookup as A = 0 := by
    unfold priorityAliasLookup
    rw [hnone]
  refine ⟨hlookAdd, ?_, ?_⟩
  · unfold parsePriorityValue
    rw [h1]
    simp [hlookAdd]
  · unfold parsePriorityValue
    rw [h1]
    simp [hlookAbsent]

/-- C10 witness: the theorem at the alias table defined by
    DefinePriority B 5 then DefinePriority Grp 0, looked up for Grp. -/
theorem priorityAlias_zero_indistinguishable_witness :
    priorityAliasLookup (priorityAliasAdd [("B", 5)] "Grp" 0) "Grp" = 0 ∧
    parsePriorityValue (priorityAliasAdd [("B", 5)] "Grp" 0) 0 "Grp" = (0, true) ∧
    parsePriorityValue [("B", 5)] 0 "Grp" = (0, true) :=
  priorityAlias_zero_indistinguishable [("B", 5)] "Grp" 0 (by decide) (by decide)

/-- C4 counterexample: the line whose first word is the strictly longer
    identifier ObjectIDfoo is dispatched as the keyword ObjectID by the
    strncmp ladder. -/
theorem dispatchAttribute_longer_identifier_counterexample :
    dispatchAttribute ("ObjectIDfoo x".data) = some ("ObjectID".data) ∧
    ("ObjectIDfoo x".data).takeWhile (fun c => !isWsC c) ≠ "ObjectID".data := by
  decide

/-- C4 amended: recognition is by prefix match at the first non-whitespace
    byte: any line that some recognised keyword prefixes is dispatched, as
    the first keyword of the ladder that is a prefix of the line; in
    particular a strictly longer identifier beginning with a keyword is
    dispatched as a keyword rather than rejected. -/
theorem dispatchAttribute_prefix_spec (line kw : List Char)
    (hmem : kw ∈ attrKeywords) (hpre : kw.isPrefixOf line = true) :
    ∃ kw2, dispatchAttribute line = some kw2 ∧ kw2.isPrefixOf line = true := by
  have hsome : (attrKeywords.find? (fun k => k.isPrefixOf line)).isSome := by
    rw [List.find?_isSome]
    exact ⟨kw, hmem, hpre⟩
  obtain ⟨kw2, hk⟩ := Option.isSome_iff_exists.mp hsome
  have hk2 := List.find?_some hk
  exact ⟨kw2, hk, hk2⟩

/-- C4 witness: the amended theorem applied to the line ObjectIDfoo x. -/
theorem dispatchAttribute_prefix_spec_witness :
    (dispatchAttribute ("ObjectIDfoo x".data)).isSome = true := by
  obtain ⟨kw2, h1, _⟩ :=
    dispatchAttribute_prefix_spec ("ObjectIDfoo x".data) ("ObjectID".data) (by decide) (by decide)
  rw [h1]
  rfl

/-! Lemmas for the priority de-duplication pass (claim C2). -/

/-- Pointwise description of mapWithIndex. -/
theorem get?_mapWithIndex (f : Nat → EpochObject → EpochObject) (s : Nat)
    (l : List EpochObject) (k : Nat) :
    (mapWithIndex f s l).get? k = (l.get? k).map (fun o => f (s + k) o) := by
  induction l generalizing s k with
  | nil => simp [mapWithIndex]
  | cons o rest ih =>
    cases k with
    | zero => simp [mapWithIndex]
    | succ k2 =>
      show (mapWithIndex f (s + 1) rest).get? k2 =
        (rest.get? k2).map (fun o => f (s + (k2 + 1)) o)
      rw [ih (s + 1) k2]
      have he : s + 1 + k2 = s + (k2 + 1) := by omega
      rw [he]

/-- mapWithIndex preserves length. -/
theorem length_mapWithIndex (f : Nat → EpochObject → EpochObject) (s : Nat)
    (l : List EpochObject) : (mapWithIndex f s l).length = l.length := by
  induction l generalizing s with
  | nil => rfl
  | cons o rest ih =>
    show (mapWithIndex f (s + 1) rest).length + 1 = rest.length + 1
    rw [ih]

/-- When the guard fails or a position is missing, the start-priority body
    leaves the table unchanged. -/
theorem dedupPairStart_eq_self_of_not (tbl : List EpochObject) (i j : Nat)
    (h : ∀ oi oj, tbl.get? i = some oi → tbl.get? j = some oj →
      ¬(oi.objectStartPriority ≠ 0 ∧ i ≠ j ∧
        oj.objectStartPriority = oi.objectStartPriority)) :
    dedupPairStart tbl i j = tbl := by
  unfold dedupPairStart
  cases hi : tbl.get? i with
  | none => rfl
  | some oi =>
    cases hj : tbl.get? j with
    | none => rfl
    | some oj => exact if_neg (h oi oj hi hj)

/-- Same for the stop-priority body. -/
theorem dedupPairStop_eq_self_of_not (tbl : List EpochObject) (i j : Nat)
    (h : ∀ oi oj, tbl.get? i = some oi → tbl.get? j = some oj →
      ¬(oi.objectStopPriority ≠ 0 ∧ i ≠ j ∧
        oj.objectStopPriority = oi.objectStopPriority)) :
    dedupPairStop tbl i j = tbl := by
  unfold dedupPairStop
  cases hi : tbl.get? i with
  | none => rfl
  | some oi =>
    cases hj : tbl.get? j with
    | none => rfl
    | some oj => exact if_neg (h oi oj hi hj)

/-- When inactive, the start-priority body is the identity. -/
theorem dedupPairStart_eq_self (tbl : List EpochObject) (i j : Nat)
    (h : ¬StartActive tbl i j) : dedupPairStart tbl i j = tbl :=
  dedupPairStart_eq_self_of_not tbl i j
    (fun oi oj hoi hoj hc => h ⟨oi, oj, hoi, hoj, hc⟩)

/-- When inactive, the stop-priority body is the identity. -/
theorem dedupPairStop_eq_self (tbl : List EpochObject) (i j : Nat)
    (h : ¬StopActive tbl i j) : dedupPairStop tbl i j = tbl :=
  dedupPairStop_eq_self_of_not tbl i j
    (fun oi oj hoi hoj hc => h ⟨oi, oj, hoi, hoj, hc⟩)

/-- The active start-priority body is the indexed update of the table. -/
theorem dedupPairStart_active_eq (tbl : List EpochObject) (i j : Nat) (oi oj : EpochObject)
    (hi : tbl.get? i = some oi) (hj : tbl.get? j = some oj)
    (hc : oi.objectStartPriority ≠ 0 ∧ i ≠ j ∧
      oj.objectStartPriority = oi.objectStartPriority) :
    dedupPairStart tbl i j = mapWithIndex (fun k o =>
      if k = j then { o with objectStartPriority := oj.objectStartPriority + 1 }
      else if oj.objectStartPriority + 1 ≤ o.objectStartPriority ∧ k ≠ i then
        { o with objectStartPriority := o.objectStartPriority + 1 }
      else o) 0 tbl := by
  unfold dedupPairStart
  simp only [hi, hj]
  rw [if_pos hc]

/-- The active stop-priority body is the indexed update of the table. -/
theorem dedupPairStop_active_eq (tbl : List EpochObject) (i j : Nat) (oi oj : EpochObject)
    (hi : tbl.get? i = some oi) (hj : tbl.get? j = some oj)
    (hc : oi.objectStopPriority ≠ 0 ∧ i ≠ j ∧
      oj.objectStopPriority = oi.objectStopPriority) :
    dedupPairStop tbl i j = mapWithIndex (fun k o =>
      if k = j then { o with objectStopPriority := oj.objectStopPriority + 1 }
      else if oj.objectStopPriority + 1 ≤ o.objectStopPriority ∧ k ≠ i then
        { o with objectStopPriority := o.objectStopPriority + 1 }
      else o) 0 tbl := by
  unfold dedupPairStop
  simp only [hi, hj]
  rw [if_pos hc]

/-- Pointwise start priorities after an active start-priority body. -/
theorem dedupPairStart_active (tbl : List EpochObject) (i j : Nat) (oi oj : EpochObject)
    (hi : tbl.get? i = some oi) (hj : tbl.get? j = some oj)
    (hc : oi.objectStartPriority ≠ 0 ∧ i ≠ j ∧
      oj.objectStartPriority = oi.objectStartPriority) (k : Nat) :
    startPrioAt (dedupPairStart tbl i j) k =
      (startPrioAt tbl k).map (fun x =>
        if k = j then oj.objectStartPriority + 1
        else if oj.objectStartPriority + 1 ≤ x ∧ k ≠ i then x + 1 else x) := by
  rw [dedupPairStart_active_eq tbl i j oi oj hi hj hc]
  unfold startPrioAt
  rw [get?_mapWithIndex]
  cases hk : tbl.get? k with
  | none => rfl
  | some o =>
    simp only [Option.map_some', Nat.zero_add]
    by_cases hkj : k = j
    · rw [if_pos hkj, if_pos hkj]
    · rw [if_neg hkj, if_neg hkj]
      by_cases hsh : oj.objectStartPriority + 1 ≤ o.objectStartPriority ∧ k ≠ i
      · rw [if_pos hsh, if_pos hsh]
      · rw [if_neg hsh, if_neg hsh]

/-- Pointwise stop priorities after an active stop-priority body. -/
theorem dedupPairStop_active (tbl : List EpochObject) (i j : Nat) (oi oj : EpochObject)
    (hi : tbl.get? i = some oi) (hj : tbl.get? j = some oj)
    (hc : oi.objectStopPriority ≠ 0 ∧ i ≠ j ∧
      oj.objectStopPriority = oi.objectStopPriority) (k : Nat) :
    stopPrioAt (dedupPairStop tbl i j) k =
      (stopPrioAt tbl k).map (fun x =>
        if k = j then oj.objectStopPriority + 1
        else if oj.objectStopPriority + 1 ≤ x ∧ k ≠ i then x + 1 else x) := by
  rw [dedupPairStop_active_eq tbl i j oi oj hi hj hc]
  unfold stopPrioAt
  rw [get?_mapWithIndex]
  cases hk : tbl.get? k with
  | none => rfl
  | some o =>
    simp only [Option.map_some', Nat.zero_add]
    by_cases hkj : k = j
    · rw [if_pos hkj, if_pos hkj]
    · rw [if_neg hkj, if_neg hkj]
      by_cases hsh : oj.objectStopPriority + 1 ≤ o.objectStopPriority ∧ k ≠ i
      · rw [if_pos hsh, if_pos hsh]
      · rw [if_neg hsh, if_neg hsh]

/-- The start-priority body never touches stop priorities. -/
theorem dedupPairStart_stopPrio (tbl : List EpochObject) (i j k : Nat) :
    stopPrioAt (dedupPairStart tbl i j) k = stopPrioAt tbl k := by
  by_cases hact : StartActive tbl i j
  · obtain ⟨oi, oj, hi, hj, hc⟩ := hact
    rw [dedupPairStart_active_eq tbl i j oi oj hi hj hc]
    unfold stopPrioAt
    rw [get?_mapWithIndex]
    cases hk : tbl.get? k with
    | none => rfl
    | some o =>
      simp only [Option.map_some']
      split_ifs <;> rfl
  · rw [dedupPairStart_eq_self tbl i j hact]

/-- The stop-priority body never touches start priorities. -/
theorem dedupPairStop_startPrio (tbl : List EpochObject) (i j k : Nat) :
    startPrioAt (dedupPairStop tbl i j) k = startPrioAt tbl k := by
  by_cases hact : StopActive tbl i j
  · obtain ⟨oi, oj, hi, hj, hc⟩ := hact
    rw [dedupPairStop_active_eq tbl i j oi oj hi hj hc]
    unfold startPrioAt
    rw [get?_mapWithIndex]
    cases hk : tbl.get? k with
    | none => rfl
    | some o =>
      simp only [Option.map_some']
      split_ifs <;> rfl
  · rw [dedupPairStop_eq_self tbl i j hact]

/-- The start-priority body preserves length. -/
theorem dedupPairStart_length (tbl : List EpochObject) (i j : Nat) :
    (dedupPairStart tbl i j).length = tbl.length := by
  by_cases hact : StartActive tbl i j
  · obtain ⟨oi, oj, hi, hj, hc⟩ := hact
    rw [dedupPairStart_active_eq tbl i j oi oj hi hj hc, length_mapWithIndex]
  · rw [dedupPairStart_eq_self tbl i j hact]

/-- The stop-priority body preserves length. -/
theorem dedupPairStop_length (tbl : List EpochObject) (i j : Nat) :
    (dedupPairStop tbl i j).length = tbl.length := by
  by_cases hact : StopActive tbl i j
  · obtain ⟨oi, oj, hi, hj, hc⟩ := hact
    rw [dedupPairStop_active_eq tbl i j oi oj hi hj hc, length_mapWithIndex]
  · rw [dedupPairStop_eq_self tbl i j hact]

/-- The start-priority body maps zero start priorities to zero and only to
    zero: priority 0 is never shifted and never created. -/
theorem dedupPairStart_zero (tbl : List EpochObject) (i j k : Nat) :
    startPrioAt (dedupPairStart tbl i j) k = some 0 ↔ startPrioAt tbl k = some 0 := by
  by_cases hact : StartActive tbl i j
  · obtain ⟨oi, oj, hi, hj, hc⟩ := hact
    rw [dedupPairStart_active tbl i j oi oj hi hj hc k]
    cases hk : tbl.get? k with
    | none =>
      unfold startPrioAt
      rw [hk]
      simp
    | some o =>
      simp only [startPrioAt, hk, Option.map_some', Option.some.injEq]
      have hcz := hc.1
      have hcs := hc.2.2
      by_cases hkj : k = j
      · subst hkj
        rw [if_pos rfl]
        have ho : o = oj := by
          have h2 := hk.symm.trans hj
          simp only [Option.some.injEq] at h2
          exact h2
        subst ho
        constructor
        · intro h0
          omega
        · intro h0
          omega
      · rw [if_neg hkj]
        by_cases hsh : oj.objectStartPriority + 1 ≤ o.objectStartPriority ∧ k ≠ i
        · rw [if_pos hsh]
          obtain ⟨hsh1, _⟩ := hsh
          constructor
          · intro h0
            omega
          · intro h0
            omega
        · rw [if_neg hsh]
  · rw [dedupPairStart_eq_self tbl i j hact]

/-- The stop-priority body maps zero stop priorities to zero and only to
    zero. -/
theorem dedupPairStop_zero (tbl : List EpochObject) (i j k : Nat) :
    stopPrioAt (dedupPairStop tbl i j) k = some 0 ↔ stopPrioAt tbl k = some 0 := by
  by_cases hact : StopActive tbl i j
  · obtain ⟨oi, oj, hi, hj, hc⟩ := hact
    rw [dedupPairStop_active tbl i j oi oj hi hj hc k]
    cases hk : tbl.get? k with
    | none =>
      unfold stopPrioAt
      rw [hk]
      simp
    | some o =>
      simp only [stopPrioAt, hk, Option.map_some', Option.some.injEq]
      have hcz := hc.1
      have hcs := hc.2.2
      by_cases hkj : k = j
      · subst hkj
        rw [if_pos rfl]
        have ho : o = oj := by
          have h2 := hk.symm.trans hj
          simp only [Option.some.injEq] at h2
          exact h2
        subst ho
        constructor
        · intro h0
          omega
        · intro h0
          omega
      · rw [if_neg hkj]
        by_cases hsh : oj.objectStopPriority + 1 ≤ o.objectStopPriority ∧ k ≠ i
        · rw [if_pos hsh]
          obtain ⟨hsh1, _⟩ := hsh
          constructor
          · intro h0
            omega
          · intro h0
            omega
        · rw [if_neg hsh]
  · rw [dedupPairStop_eq_self tbl i j hact]

/-- The start-priority body creates no new collision: two distinct positions
    equal and non-zero afterwards were already equal and non-zero before. -/
theorem dedupPairStart_nonew (tbl : List EpochObject) (i j a b : Nat) (hab : a ≠ b)
    (x : Nat) (hx : x ≠ 0)
    (ha : startPrioAt (dedupPairStart tbl i j) a = some x)
    (hb : startPrioAt (dedupPairStart tbl i j) b = some x) :
    ∃ y, y ≠ 0 ∧ startPrioAt tbl a = some y ∧ startPrioAt tbl b = some y := by
  by_cases hact : StartActive tbl i j
  case neg =>
    rw [dedupPairStart_eq_self tbl i j hact] at ha hb
    exact ⟨x, hx, ha, hb⟩
  case pos =>
  obtain ⟨oi, oj, hi, hj, hc⟩ := hact
  rw [dedupPairStart_active tbl i j oi oj hi hj hc a, Option.map_eq_some'] at ha
  rw [dedupPairStart_active tbl i j oi oj hi hj hc b, Option.map_eq_some'] at hb
  obtain ⟨ya, hya, hga⟩ := ha
  obtain ⟨yb, hyb, hgb⟩ := hb
  have hsj : startPrioAt tbl j = some oj.objectStartPriority := by unfold startPrioAt; rw [hj]; rfl
  have hsi : startPrioAt tbl i = some oi.objectStartPriority := by unfold startPrioAt; rw [hi]; rfl
  have hcs := hc.2.2
  have hcz := hc.1
  by_cases haj : a = j
  · subst haj
    rw [if_pos rfl] at hga
    have hbj : b ≠ a := fun hbe => hab hbe.symm
    rw [if_neg hbj] at hgb
    by_cases hsh : oj.objectStartPriority + 1 ≤ yb ∧ b ≠ i
    · obtain ⟨hsh1, hsh2⟩ := hsh
      rw [if_pos ⟨hsh1, hsh2⟩] at hgb
      exfalso
      omega
    · rw [if_neg hsh] at hgb
      have hble : oj.objectStartPriority + 1 ≤ yb := by omega
      have hbi : b = i := by
        by_contra hbne
        exact hsh ⟨hble, hbne⟩
      subst hbi
      rw [hyb] at hsi
      simp only [Option.some.injEq] at hsi
      exfalso
      omega
  · by_cases hbj : b = j
    · subst hbj
      rw [if_pos rfl] at hgb
      rw [if_neg haj] at hga
      by_cases hsh : oj.objectStartPriority + 1 ≤ ya ∧ a ≠ i
      · obtain ⟨hsh1, hsh2⟩ := hsh
        rw [if_pos ⟨hsh1, hsh2⟩] at hga
        exfalso
        omega
      · rw [if_neg hsh] at hga
        have hble : oj.objectStartPriority + 1 ≤ ya := by omega
        have hai : a = i := by
          by_contra hane
          exact hsh ⟨hble, hane⟩
        subst hai
        rw [hya] at hsi
        simp only [Option.some.injEq] at hsi
        exfalso
        omega
    · rw [if_neg haj] at hga
      rw [if_neg hbj] at hgb
      by_cases hshA : oj.objectStartPriority + 1 ≤ ya ∧ a ≠ i
      · obtain ⟨hA1, hA2⟩ := hshA
        rw [if_pos ⟨hA1, hA2⟩] at hga
        by_cases hshB : oj.objectStartPriority + 1 ≤ yb ∧ b ≠ i
        · obtain ⟨hB1, hB2⟩ := hshB
          rw [if_pos ⟨hB1, hB2⟩] at hgb
          have hyy : ya = yb := by omega
          exact ⟨ya, by omega, hya, hyy ▸ hyb⟩
        · rw [if_neg hshB] at hgb
          have hble : oj.objectStartPriority + 1 ≤ yb := by omega
          have hbi : b = i := by
            by_contra hbne
            exact hshB ⟨hble, hbne⟩
          subst hbi
          rw [hyb] at hsi
          simp only [Option.some.injEq] at hsi
          exfalso
          omega
      · rw [if_neg hshA] at hga
        by_cases hshB : oj.objectStartPriority + 1 ≤ yb ∧ b ≠ i
        · obtain ⟨hB1, hB2⟩ := hshB
          rw [if_pos ⟨hB1, hB2⟩] at hgb
          have hble : oj.objectStartPriority + 1 ≤ ya := by omega
          have hai : a = i := by
            by_contra hane
            exact hshA ⟨hble, hane⟩
          subst hai
          rw [hya] at hsi
          simp only [Option.some.injEq] at hsi
          exfalso
          omega
        · rw [if_neg hshB] at hgb
          refine ⟨x, hx, ?_, ?_⟩
          · rw [← hga]
            exact hya
          · rw [← hgb]
            exact hyb

/-- The stop-priority body creates no new collision. -/
theorem dedupPairStop_nonew (tbl : List EpochObject) (i j a b : Nat) (hab : a ≠ b)
    (x : Nat) (hx : x ≠ 0)
    (ha : stopPrioAt (dedupPairStop tbl i j) a = some x)
    (hb : stopPrioAt (dedupPairStop tbl i j) b = some x) :
    ∃ y, y ≠ 0 ∧ stopPrioAt tbl a = some y ∧ stopPrioAt tbl b = some y := by
  by_cases hact : StopActive tbl i j
  case neg =>
    rw [dedupPairStop_eq_self tbl i j hact] at ha hb
    exact ⟨x, hx, ha, hb⟩
  case pos =>
  obtain ⟨oi, oj, hi, hj, hc⟩ := hact
  rw [dedupPairStop_active tbl i j oi oj hi hj hc a, Option.map_eq_some'] at ha
  rw [dedupPairStop_active tbl i j oi oj hi hj hc b, Option.map_eq_some'] at hb
  obtain ⟨ya, hya, hga⟩ := ha
  obtain ⟨yb, hyb, hgb⟩ := hb
  have hsj : stopPrioAt tbl j = some oj.objectStopPriority := by unfold stopPrioAt; rw [hj]; rfl
  have hsi : stopPrioAt tbl i = some oi.objectStopPriority := by unfold stopPrioAt; rw [hi]; rfl
  have hcs := hc.2.2
  have hcz := hc.1
  by_cases haj : a = j
  · subst haj
    rw [if_pos rfl] at hga
    have hbj : b ≠ a := fun hbe => hab hbe.symm
    rw [if_neg hbj] at hgb
    by_cases hsh : oj.objectStopPriority + 1 ≤ yb ∧ b ≠ i
    · obtain ⟨hsh1, hsh2⟩ := hsh
      rw [if_pos ⟨hsh1, hsh2⟩] at hgb
      exfalso
      omega
    · rw [if_neg hsh] at hgb
      have hble : oj.objectStopPriority + 1 ≤ yb := by omega
      have hbi : b = i := by
        by_contra hbne
        exact hsh ⟨hble, hbne⟩
      subst hbi
      rw [hyb] at hsi
      simp only [Option.some.injEq] at hsi
      exfalso
      omega
  · by_cases hbj : b = j
    · subst hbj
      rw [if_pos rfl] at hgb
      rw [if_neg haj] at hga
      by_cases hsh : oj.objectStopPriority + 1 ≤ ya ∧ a ≠ i
      · obtain ⟨hsh1, hsh2⟩ := hsh
        rw [if_pos ⟨hsh1, hsh2⟩] at hga
        exfalso
        omega
      · rw [if_neg hsh] at hga
        have hble : oj.objectStopPriority + 1 ≤ ya := by omega
        have hai : a = i := by
          by_contra hane
          exact hsh ⟨hble, hane⟩
        subst hai
        rw [hya] at hsi
        simp only [Option.some.injEq] at hsi
        exfalso
        omega
    · rw [if_neg haj] at hga
      rw [if_neg hbj] at hgb
      by_cases hshA : oj.objectStopPriority + 1 ≤ ya ∧ a ≠ i
      · obtain ⟨hA1, hA2⟩ := hshA
        rw [if_pos ⟨hA1, hA2⟩] at hga
        by_cases hshB : oj.objectStopPriority + 1 ≤ yb ∧ b ≠ i
        · obtain ⟨hB1, hB2⟩ := hshB
          rw [if_pos ⟨hB1, hB2⟩] at hgb
          have hyy : ya = yb := by omega
          exact ⟨ya, by omega, hya, hyy ▸ hyb⟩
        · rw [if_neg hshB] at hgb
          have hble : oj.objectStopPriority + 1 ≤ yb := by omega
          have hbi : b = i := by
            by_contra hbne
            exact hshB ⟨hble, hbne⟩
          subst hbi
          rw [hyb] at hsi
          simp only [Option.some.injEq] at hsi
          exfalso
          omega
      · rw [if_neg hshA] at hga
        by_cases hshB : oj.objectStopPriority + 1 ≤ yb ∧ b ≠ i
        · obtain ⟨hB1, hB2⟩ := hshB
          rw [if_pos ⟨hB1, hB2⟩] at hgb
          have hble : oj.objectStopPriority + 1 ≤ ya := by omega
          have hai : a = i := by
            by_contra hane
            exact hshA ⟨hble, hane⟩
          subst hai
          rw [hya] at hsi
          simp only [Option.some.injEq] at hsi
          exfalso
          omega
        · rw [if_neg hshB] at hgb
          refine ⟨x, hx, ?_, ?_⟩
          · rw [← hga]
            exact hya
          · rw [← hgb]
            exact hyb

/-- After the start-priority body for (i, j), positions i and j do not share
    a non-zero start priority. -/
theorem dedupPairStart_fix (tbl : List EpochObject) (i j : Nat) (hij : i ≠ j)
    (x : Nat) (hx : x ≠ 0)
    (h1 : startPrioAt (dedupPairStart tbl i j) i = some x)
    (h2 : startPrioAt (dedupPairStart tbl i j) j = some x) : False := by
  by_cases hact : StartActive tbl i j
  · obtain ⟨oi, oj, hi, hj, hc⟩ := hact
    rw [dedupPairStart_active tbl i j oi oj hi hj hc i, Option.map_eq_some'] at h1
    rw [dedupPairStart_active tbl i j oi oj hi hj hc j, Option.map_eq_some'] at h2
    obtain ⟨yi, hyi, hgi⟩ := h1
    obtain ⟨yj, hyj, hgj⟩ := h2
    rw [if_neg hij] at hgi
    rw [if_pos rfl] at hgj
    rw [if_neg (by simp)] at hgi
    have hsi : startPrioAt tbl i = some oi.objectStartPriority := by unfold startPrioAt; rw [hi]; rfl
    rw [hyi] at hsi
    simp only [Option.some.injEq] at hsi
    have hcs := hc.2.2
    omega
  · rw [dedupPairStart_eq_self tbl i j hact] at h1 h2
    apply hact
    unfold startPrioAt at h1 h2
    obtain ⟨oi, hoi, hoieq⟩ := Option.map_eq_some'.mp h1
    obtain ⟨oj, hoj, hojeq⟩ := Option.map_eq_some'.mp h2
    exact ⟨oi, oj, hoi, hoj, by omega, hij, by omega⟩

/-- After the stop-priority body for (i, j), positions i and j do not share
    a non-zero stop priority. -/
theorem dedupPairStop_fix (tbl : List EpochObject) (i j : Nat) (hij : i ≠ j)
    (x : Nat) (hx : x ≠ 0)
    (h1 : stopPrioAt (dedupPairStop tbl i j) i = some x)
    (h2 : stopPrioAt (dedupPairStop tbl i j) j = some x) : False := by
  by_cases hact : StopActive tbl i j
  · obtain ⟨oi, oj, hi, hj, hc⟩ := hact
    rw [dedupPairStop_active tbl i j oi oj hi hj hc i, Option.map_eq_some'] at h1
    rw [dedupPairStop_active tbl i j oi oj hi hj hc j, Option.map_eq_some'] at h2
    obtain ⟨yi, hyi, hgi⟩ := h1
    obtain ⟨yj, hyj, hgj⟩ := h2
    rw [if_neg hij] at hgi
    rw [if_pos rfl] at hgj
    rw [if_neg (by simp)] at hgi
    have hsi : stopPrioAt tbl i = some oi.objectStopPriority := by unfold stopPrioAt; rw [hi]; rfl
    rw [hyi] at hsi
    simp only [Option.some.injEq] at hsi
    have hcs := hc.2.2
    omega
  · rw [dedupPairStop_eq_self tbl i j hact] at h1 h2
    apply hact
    unfold stopPrioAt at h1 h2
    obtain ⟨oi, hoi, hoieq⟩ := Option.map_eq_some'.mp h1
    obtain ⟨oj, hoj, hojeq⟩ := Option.map_eq_some'.mp h2
    exact ⟨oi, oj, hoi, hoj, by omega, hij, by omega⟩

/-- One combined loop body preserves zero start priorities. -/
theorem dedupStep_startPrio_zero (tbl : List EpochObject) (i j k : Nat)
    (h : startPrioAt tbl k = some 0) : startPrioAt (dedupStep tbl (i, j)) k = some 0 := by
  unfold dedupStep
  rw [dedupPairStop_startPrio]
  exact (dedupPairStart_zero tbl i j k).mpr h

/-- One combined loop body preserves zero stop priorities. -/
theorem dedupStep_stopPrio_zero (tbl : List EpochObject) (i j k : Nat)
    (h : stopPrioAt tbl k = some 0) : stopPrioAt (dedupStep tbl (i, j)) k = some 0 := by
  unfold dedupStep
  refine (dedupPairStop_zero _ i j k).mpr ?_
  rw [dedupPairStart_stopPrio]
  exact h

/-- One combined loop body creates no new start-priority collision. -/
theorem dedupStep_nonew_start (tbl : List EpochObject) (i j a b : Nat) (hab : a ≠ b)
    (x : Nat) (hx : x ≠ 0)
    (ha : startPrioAt (dedupStep tbl (i, j)) a = some x)
    (hb : startPrioAt (dedupStep tbl (i, j)) b = some x) :
    ∃ y, y ≠ 0 ∧ startPrioAt tbl a = some y ∧ startPrioAt tbl b = some y := by
  unfold dedupStep at ha hb
  rw [dedupPairStop_startPrio] at ha hb
  exact dedupPairStart_nonew tbl i j a b hab x hx ha hb

/-- One combined loop body creates no new stop-priority collision. -/
theorem dedupStep_nonew_stop (tbl : List EpochObject) (i j a b : Nat) (hab : a ≠ b)
    (x : Nat) (hx : x ≠ 0)
    (ha : stopPrioAt (dedupStep tbl (i, j)) a = some x)
    (hb : stopPrioAt (dedupStep tbl (i, j)) b = some x) :
    ∃ y, y ≠ 0 ∧ stopPrioAt tbl a = some y ∧ stopPrioAt tbl b = some y := by
  unfold dedupStep at ha hb
  obtain ⟨y, hy0, hya, hyb⟩ :=
    dedupPairStop_nonew (dedupPairStart tbl i j) i j a b hab x hx ha hb
  rw [dedupPairStart_stopPrio] at hya hyb
  exact ⟨y, hy0, hya, hyb⟩

/-- After the combined body for (i, j), i and j share no non-zero start
    priority. -/
theorem dedupStep_fix_start (tbl : List EpochObject) (i j : Nat) (hij : i ≠ j)
    (x : Nat) (hx : x ≠ 0)
    (h1 : startPrioAt (dedupStep tbl (i, j)) i = some x)
    (h2 : startPrioAt (dedupStep tbl (i, j)) j = some x) : False := by
  unfold dedupStep at h1 h2
  rw [dedupPairStop_startPrio] at h1 h2
  exact dedupPairStart_fix tbl i j hij x hx h1 h2

/-- After the combined body for (i, j), i and j share no non-zero stop
    priority. -/
theorem dedupStep_fix_stop (tbl : List EpochObject) (i j : Nat) (hij : i ≠ j)
    (x : Nat) (hx : x ≠ 0)
    (h1 : stopPrioAt (dedupStep tbl (i, j)) i = some x)
    (h2 : stopPrioAt (dedupStep tbl (i, j)) j = some x) : False := by
  unfold dedupStep at h1 h2
  exact dedupPairStop_fix (dedupPairStart tbl i j) i j hij x hx h1 h2

/-- One combined loop body preserves length. -/
theorem dedupStep_length (tbl : List EpochObject) (ij : Nat × Nat) :
    (dedupStep tbl ij).length = tbl.length := by
  unfold dedupStep
  rw [dedupPairStop_length, dedupPairStart_length]

/-- The whole double loop preserves length. -/
theorem dedupFold_length (L : List (Nat × Nat)) :
    ∀ tbl : List EpochObject, (L.foldl dedupStep tbl).length = tbl.length := by
  induction L with
  | nil => intro tbl; rfl
  | cons ij rest ih =>
    intro tbl
    rw [List.foldl_cons, ih, dedupStep_length]

/-- The whole double loop preserves zero start priorities. -/
theorem dedupFold_zero_start (L : List (Nat × Nat)) (k : Nat) :
    ∀ tbl : List EpochObject, startPrioAt tbl k = some 0 →
      startPrioAt (L.foldl dedupStep tbl) k = some 0 := by
  induction L with
  | nil => exact fun tbl h => h
  | cons ij rest ih =>
    intro tbl h
    rw [List.foldl_cons]
    refine ih (dedupStep tbl ij) ?_
    obtain ⟨i, j⟩ := ij
    exact dedupStep_startPrio_zero tbl i j k h

/-- The whole double loop preserves zero stop priorities. -/
theorem dedupFold_zero_stop (L : List (Nat × Nat)) (k : Nat) :
    ∀ tbl : List EpochObject, stopPrioAt tbl k = some 0 →
      stopPrioAt (L.foldl dedupStep tbl) k = some 0 := by
  induction L with
  | nil => exact fun tbl h => h
  | cons ij rest ih =>
    intro tbl h
    rw [List.foldl_cons]
    refine ih (dedupStep tbl ij) ?_
    obtain ⟨i, j⟩ := ij
    exact dedupStep_stopPrio_zero tbl i j k h

/-- The whole double loop preserves absence of a start-priority collision
    between two fixed positions. -/
theorem dedupFold_nc_start (L : List (Nat × Nat)) (a b : Nat) (hab : a ≠ b) :
    ∀ tbl : List EpochObject,
      (∀ x, x ≠ 0 → startPrioAt tbl a = some x → startPrioAt tbl b = some x → False) →
      ∀ x, x ≠ 0 → startPrioAt (L.foldl dedupStep tbl) a = some x →
        startPrioAt (L.foldl dedupStep tbl) b = some x → False := by
  induction L with
  | nil => exact fun tbl h => h
  | cons ij rest ih =>
    intro tbl h x hx hxa hxb
    rw [List.foldl_cons] at hxa hxb
    refine ih (dedupStep tbl ij) ?_ x hx hxa hxb
    intro x2 hx2 ha2 hb2
    obtain ⟨i, j⟩ := ij
    obtain ⟨y, hy0, hya, hyb⟩ := dedupStep_nonew_start tbl i j a b hab x2 hx2 ha2 hb2
    exact h y hy0 hya hyb

/-- The whole double loop preserves absence of a stop-priority collision
    between two fixed positions. -/
theorem dedupFold_nc_stop (L : List (Nat × Nat)) (a b : Nat) (hab : a ≠ b) :
    ∀ tbl : List EpochObject,
      (∀ x, x ≠ 0 → stopPrioAt tbl a = some x → stopPrioAt tbl b = some x → False) →
      ∀ x, x ≠ 0 → stopPrioAt (L.foldl dedupStep tbl) a = some x →
        stopPrioAt (L.foldl dedupStep tbl) b = some x → False := by
  induction L with
  | nil => exact fun tbl h => h
  | cons ij rest ih =>
    intro tbl h x hx hxa hxb
    rw [List.foldl_cons] at hxa hxb
    refine ih (dedupStep tbl ij) ?_ x hx hxa hxb
    intro x2 hx2 ha2 hb2
    obtain ⟨i, j⟩ := ij
    obtain ⟨y, hy0, hya, hyb⟩ := dedupStep_nonew_stop tbl i j a b hab x2 hx2 ha2 hb2
    exact h y hy0 hya hyb

/-- Every position pair visited by the double loop ends without a shared
    non-zero start priority. -/
theorem dedupFold_fix_start (L : List (Nat × Nat)) (i j : Nat) (hij : i ≠ j) :
    ∀ tbl : List EpochObject, (i, j) ∈ L →
      ∀ x, x ≠ 0 → startPrioAt (L.foldl dedupStep tbl) i = some x →
        startPrioAt (L.foldl dedupStep tbl) j = some x → False := by
  induction L with
  | nil =>
    intro tbl hmem
    cases hmem
  | cons ij0 rest ih =>
    intro tbl hmem x hx hxa hxb
    rw [List.foldl_cons] at hxa hxb
    rcases List.mem_cons.mp hmem with he | hm
    · cases he
      exact dedupFold_nc_start rest i j hij (dedupStep tbl (i, j))
        (fun x2 hx2 ha2 hb2 => dedupStep_fix_start tbl i j hij x2 hx2 ha2 hb2)
        x hx hxa hxb
    · exact ih (dedupStep tbl ij0) hm x hx hxa hxb

/-- Every position pair visited by the double loop ends without a shared
    non-zero stop priority. -/
theorem dedupFold_fix_stop (L : List (Nat × Nat)) (i j : Nat) (hij : i ≠ j) :
    ∀ tbl : List EpochObject, (i, j) ∈ L →
      ∀ x, x ≠ 0 → stopPrioAt (L.foldl dedupStep tbl) i = some x →
        stopPrioAt (L.foldl dedupStep tbl) j = some x → False := by
  induction L with
  | nil =>
    intro tbl hmem
    cases hmem
  | cons ij0 rest ih =>
    intro tbl hmem x hx hxa hxb
    rw [List.foldl_cons] at hxa hxb
    rcases List.mem_cons.mp hmem with he | hm
    · cases he
      exact dedupFold_nc_stop rest i j hij (dedupStep tbl (i, j))
        (fun x2 hx2 ha2 hb2 => dedupStep_fix_stop tbl i j hij x2 hx2 ha2 hb2)
        x hx hxa hxb
    · exact ih (dedupStep tbl ij0) hm x hx hxa hxb

/-- The double loop visits every pair of positions of the table. -/
theorem mem_dedupPairs (n a b : Nat) (ha : a < n) (hb : b < n) : (a, b) ∈ dedupPairs n := by
  unfold dedupPairs
  rw [List.mem_flatMap]
  exact ⟨a, List.mem_range.mpr ha, List.mem_map.mpr ⟨b, List.mem_range.mpr hb, rfl⟩⟩

/-- A position with a start priority is inside the table. -/
theorem startPrioAt_lt {tbl : List EpochObject} {k x : Nat}
    (h : startPrioAt tbl k = some x) : k < tbl.length := by
  unfold startPrioAt at h
  obtain ⟨o, ho, _⟩ := Option.map_eq_some'.mp h
  by_contra hle
  rw [List.get?_eq_none.mpr (by omega)] at ho
  cases ho

/-- A position with a stop priority is inside the table. -/
theorem stopPrioAt_lt {tbl : List EpochObject} {k x : Nat}
    (h : stopPrioAt tbl k = some x) : k < tbl.length := by
  unfold stopPrioAt at h
  obtain ⟨o, ho, _⟩ := Option.map_eq_some'.mp h
  by_contra hle
  rw [List.get?_eq_none.mpr (by omega)] at ho
  cases ho

/-- C2: after the post-parse de-duplication pass of InitConfig (which runs
    before the table is published, so any table for which InitConfig returns
    SUCCESS or WARNING carries its result), no two distinct positions share
    a non-zero start priority, none share a non-zero stop priority, and
    every position whose declared priority was 0 still has 0 in that phase. -/
theorem dedup_priorities_spec (tbl : List EpochObject) :
    (∀ a b x, a ≠ b → x ≠ 0 →
      startPrioAt (dedupPriorities tbl) a = some x →
      startPrioAt (dedupPriorities tbl) b = some x → False) ∧
    (∀ a b x, a ≠ b → x ≠ 0 →
      stopPrioAt (dedupPriorities tbl) a = some x →
      stopPrioAt (dedupPriorities tbl) b = some x → False) ∧
    (∀ k, startPrioAt tbl k = some 0 → startPrioAt (dedupPriorities tbl) k = some 0) ∧
    (∀ k, stopPrioAt tbl k = some 0 → stopPrioAt (dedupPriorities tbl) k = some 0) := by
  have hlen : (dedupPriorities tbl).length = tbl.length := dedupFold_length _ tbl
  refine ⟨?_, ?_, ?_, ?_⟩
  · intro a b x hab hx ha hb
    have haL : a < tbl.length := by
      have h2 := startPrioAt_lt ha
      rwa [hlen] at h2
    have hbL : b < tbl.length := by
      have h2 := startPrioAt_lt hb
      rwa [hlen] at h2
    exact dedupFold_fix_start (dedupPairs tbl.length) a b hab tbl
      (mem_dedupPairs tbl.length a b haL hbL) x hx ha hb
  · intro a b x hab hx ha hb
    have haL : a < tbl.length := by
      have h2 := stopPrioAt_lt ha
      rwa [hlen] at h2
    have hbL : b < tbl.length := by
      have h2 := stopPrioAt_lt hb
      rwa [hlen] at h2
    exact dedupFold_fix_stop (dedupPairs tbl.length) a b hab tbl
      (mem_dedupPairs tbl.length a b haL hbL) x hx ha hb
  · intro k h
    exact dedupFold_zero_start (dedupPairs tbl.length) k tbl h
  · intro k h
    exact dedupFold_zero_stop (dedupPairs tbl.length) k tbl h

/-- C2 witness: the zero-preservation parts applied to a concrete table with
    duplicated priorities 3 (start) and 5 (stop) and zeros in both phases. -/
theorem dedup_priorities_spec_witness :
    startPrioAt (dedupPriorities dedupWitnessTable) 2 = some 0 ∧
    stopPrioAt (dedupPriorities dedupWitnessTable) 0 = some 0 :=
  ⟨(dedup_priorities_spec dedupWitnessTable).2.2.1 2 (by decide),
   (dedup_priorities_spec dedupWitnessTable).2.2.2 0 (by decide)⟩

/-! Lemmas for the transactional reload (claims C1 and C6). -/

/-- The merge of one backup object does not change any object id. -/
theorem updateFirst_map_id (acc : List EpochObject) (b : EpochObject) :
    (updateFirst acc b).map (fun o => o.objectID) = acc.map (fun o => o.objectID) := by
  induction acc with
  | nil => rfl
  | cons a rest ih =>
    unfold updateFirst
    by_cases hid : a.objectID = b.objectID
    · rw [if_pos hid]
      simp only [List.map_cons]
    · rw [if_neg hid]
      simp only [List.map_cons]
      rw [ih]

/-- An object of the merged table whose id differs from the merged backup
    object was present unchanged before. -/
theorem updateFirst_mem_of_ne (acc : List EpochObject) (b : EpochObject) (o : EpochObject)
    (ho : o ∈ updateFirst acc b) (hne : o.objectID ≠ b.objectID) : o ∈ acc := by
  induction acc with
  | nil =>
    rw [show updateFirst [] b = [] from rfl] at ho
    cases ho
  | cons a rest ih =>
    unfold updateFirst at ho
    by_cases hid : a.objectID = b.objectID
    · rw [if_pos hid] at ho
      rcases List.mem_cons.mp ho with he | hm
      · exfalso
        apply hne
        rw [he]
        exact hid
      · exact List.mem_cons_of_mem a hm
    · rw [if_neg hid] at ho
      rcases List.mem_cons.mp ho with he | hm
      · exact he ▸ List.mem_cons_self a rest
      · exact List.mem_cons_of_mem a (ih hm)

/-- With distinct ids, every object of the merged table sharing the merged
    backup object's id carries its runtime fields. -/
theorem updateFirst_copied (acc : List EpochObject) (b : EpochObject)
    (han : (acc.map (fun o => o.objectID)).Nodup) :
    ∀ o ∈ updateFirst acc b, o.objectID = b.objectID →
      o.started = b.started ∧ o.objectPID = b.objectPID := by
  induction acc with
  | nil =>
    intro o ho
    rw [show updateFirst [] b = [] from rfl] at ho
    cases ho
  | cons a rest ih =>
    intro o ho hid
    unfold updateFirst at ho
    by_cases haid : a.objectID = b.objectID
    · rw [if_pos haid] at ho
      rcases List.mem_cons.mp ho with he | hm
      · cases he
        exact ⟨rfl, rfl⟩
      · exfalso
        have h1 := (List.nodup_cons.mp han).1
        apply h1
        have hoa : o.objectID = a.objectID := by rw [hid, haid]
        show a.objectID ∈ List.map (fun o => o.objectID) rest
        rw [← hoa]
        exact List.mem_map_of_mem _ hm
    · rw [if_neg haid] at ho
      rcases List.mem_cons.mp ho with he | hm
      · cases he
        exact absurd hid haid
      · exact ih (List.nodup_cons.mp han).2 o hm hid

/-- Merging further backup objects with different ids keeps a carried
    runtime property of one id intact. -/
theorem reloadMerge_preserve (bs : List EpochObject) (X : String) (s : Bool) (pd : Nat)
    (hne : ∀ b2 ∈ bs, b2.objectID ≠ X) :
    ∀ acc : List EpochObject,
      (∀ o ∈ acc, o.objectID = X → o.started = s ∧ o.objectPID = pd) →
      ∀ o ∈ bs.foldl updateFirst acc, o.objectID = X → o.started = s ∧ o.objectPID = pd := by
  induction bs with
  | nil => exact fun acc h => h
  | cons b2 rest ih =>
    intro acc h o ho hX
    rw [List.foldl_cons] at ho
    refine ih (fun b3 hb3 => hne b3 (List.mem_cons_of_mem b2 hb3))
      (updateFirst acc b2) ?_ o ho hX
    intro o2 ho2 hX2
    have hb2X : b2.objectID ≠ X := hne b2 (List.mem_cons_self b2 rest)
    have ho2acc : o2 ∈ acc := by
      refine updateFirst_mem_of_ne acc b2 o2 ho2 ?_
      intro he
      exact hb2X (he ▸ hX2)
    exact h o2 ho2acc hX2

/-- The merge loop of ReloadConfig: when both tables have distinct ids,
    every merged object sharing an id with a backup object carries the
    backup's Started and ObjectPID. -/
theorem reloadMerge_carries (backup : List EpochObject) :
    ∀ acc : List EpochObject,
      (backup.map (fun o => o.objectID)).Nodup →
      (acc.map (fun o => o.objectID)).Nodup →
      ∀ b ∈ backup, ∀ o ∈ backup.foldl updateFirst acc, o.objectID = b.objectID →
        o.started = b.started ∧ o.objectPID = b.objectPID := by
  induction backup with
  | nil =>
    intro acc _ _ b hb
    cases hb
  | cons b0 rest ih =>
    intro acc hbn han b hb o ho hid
    rw [List.foldl_cons] at ho
    rcases List.mem_cons.mp hb with rfl | hbr
    · have hb0notin : ∀ b2 ∈ rest, b2.objectID ≠ b.objectID := by
        have h1 := (List.nodup_cons.mp hbn).1
        intro b2 hb2 he
        apply h1
        show b.objectID ∈ List.map (fun o => o.objectID) rest
        rw [← he]
        exact List.mem_map_of_mem _ hb2
      refine reloadMerge_preserve rest b.objectID b.started b.objectPID hb0notin
        (updateFirst acc b) ?_ o ho hid
      intro o2 ho2 hid2
      exact updateFirst_copied acc b han o2 ho2 hid2
    · refine ih (updateFirst acc b0) (List.nodup_cons.mp hbn).2 ?_ b hbr o ho hid
      rw [updateFirst_map_id acc b0]
      exact han

/-- C6: when the re-parse succeeds, ReloadConfig returns SUCCESS, the three
    runtime-controlled globals (EnableLogging, DisableCAD,
    AlignStatusReports) keep their pre-reload values rather than the values
    the new file set, and (for tables with distinct ids, which published
    tables are) every object of the installed table whose id names a
    pre-reload object carries that object's runtime Started and ObjectPID. -/
theorem reloadConfig_success_spec (pre st : ConfigState)
    (hb : (pre.objectTable.map (fun o => o.objectID)).Nodup)
    (hn : (st.objectTable.map (fun o => o.objectID)).Nodup) :
    (reloadConfig pre (some st)).1 = rStatus.SUCCESS ∧
    (reloadConfig pre (some st)).2.enableLogging = pre.enableLogging ∧
    (reloadConfig pre (some st)).2.disableCAD = pre.disableCAD ∧
    (reloadConfig pre (some st)).2.alignStatusReports = pre.alignStatusReports ∧
    ∀ b ∈ pre.objectTable, ∀ o ∈ (reloadConfig pre (some st)).2.objectTable,
      o.objectID = b.objectID → o.started = b.started ∧ o.objectPID = b.objectPID := by
  refine ⟨rfl, rfl, rfl, rfl, ?_⟩
  intro b hbmem o homem hid
  exact reloadMerge_carries pre.objectTable st.objectTable hb hn b hbmem o homem hid

/-- C6 witness: the theorem applied to a started object with PID 42
    surviving a reload that toggles all three globals. -/
theorem reloadConfig_success_spec_witness :
    (reloadConfig preReloadState (some newParsedState)).2.enableLogging =
      preReloadState.enableLogging ∧
    mergedWitnessObj.started = backupWitnessObj.started ∧
    mergedWitnessObj.objectPID = backupWitnessObj.objectPID :=
  ⟨(reloadConfig_success_spec preReloadState newParsedState (by decide) (by decide)).2.1,
   (reloadConfig_success_spec preReloadState newParsedState (by decide) (by decide)).2.2.2.2
     backupWitnessObj (by decide) mergedWitnessObj (by decide) (by decide)⟩

/-- C1: evaluation of ReloadConfig at a failing re-parse over a two-pair
    inheritance relation. The object table, the current runlevel and the
    three globals are restored, and the call returns FAILURE, but the
    restored runlevel-inheritance relation is only the last backed-up pair:
    the backup loop of config.c lines 2031-2039 never advances its
    destination node, so rollback loses every pair but the last. -/
theorem reloadConfig_rollback_loses_inheritance :
    (reloadConfig preReloadState none).1 = rStatus.FAILURE ∧
    (reloadConfig preReloadState none).2.objectTable = preReloadState.objectTable ∧
    (reloadConfig preReloadState none).2.curRunlevel = preReloadState.curRunlevel ∧
    (reloadConfig preReloadState none).2.enableLogging = preReloadState.enableLogging ∧
    (reloadConfig preReloadState none).2.disableCAD = preReloadState.disableCAD ∧
    (reloadConfig preReloadState none).2.alignStatusReports =
      preReloadState.alignStatusReports ∧
    (reloadConfig preReloadState none).2.runlevelInheritance = [("single", "default")] ∧
    (reloadConfig preReloadState none).2.runlevelInheritance ≠
      preReloadState.runlevelInheritance := by
  decide

/-! Lemmas for EditConfigValue (claims C7 and C8). -/

/-- The replacement phase either fails leaving the file alone or succeeds. -/
theorem editPhase2_failure_or_success (file a v : List Char) (off : Nat) :
    editPhase2 file a v off = (rStatus.FAILURE, file) ∨
    (editPhase2 file a v off).1 = rStatus.SUCCESS := by
  simp only [editPhase2]
  split
  · exact Or.inl rfl
  · split
    · exact Or.inl rfl
    · split
      · exact Or.inl rfl
      · split
        · exact Or.inl rfl
        · exact Or.inr rfl

/-- C8 counterexample: on the targeted line Foo with a separator but an
    empty value, EditConfigValue does not fail: it returns SUCCESS and
    rewrites the file, inserting the new value. -/
theorem editConfigValue_empty_value_counterexample :
    editConfigValue ("ObjectID a\nFoo \n".data) ("a".data) ("Foo".data) ("x".data) =
      (rStatus.SUCCESS, "ObjectID a\nFoo x\n".data) ∧
    ("ObjectID a\nFoo x\n".data) ≠ ("ObjectID a\nFoo \n".data) := by
  decide

/-- C8 amended: whenever EditConfigValue returns FAILURE the on-disk file is
    untouched, and the failure modes object-not-found, attribute-not-found
    and no-separator-on-the-targeted-line do return FAILURE; a targeted line
    with a separator but an empty value is edited normally instead of
    failing. -/
theorem editConfigValue_failure_spec :
    (∀ file idArg attrArg valArg : List Char,
      (editConfigValue file idArg attrArg valArg).1 = rStatus.FAILURE →
      (editConfigValue file idArg attrArg valArg).2 = file) ∧
    (editConfigValue ("ObjectID a\nFoo v\n".data) ("b".data) ("Foo".data) ("x".data)).1 =
      rStatus.FAILURE ∧
    (editConfigValue ("ObjectID a\nBar v\n".data) ("a".data) ("Foo".data) ("x".data)).1 =
      rStatus.FAILURE ∧
    (editConfigValue ("ObjectID a\nFoo\n".data) ("a".data) ("Foo".data) ("x".data)).1 =
      rStatus.FAILURE := by
  refine ⟨?_, by decide, by decide, by decide⟩
  intro file idArg attrArg valArg h
  unfold editConfigValue at h ⊢
  by_cases hf : file = []
  · rw [if_pos hf]
  · rw [if_neg hf] at h ⊢
    cases hscan : scanLines idArg (cLines file) 0 none with
    | error e => rfl
    | ok found =>
      cases found with
      | none => rfl
      | some off =>
        rw [hscan] at h
        rcases editPhase2_failure_or_success file attrArg valArg off with hh | hh
        · show (editPhase2 file attrArg valArg off).2 = file
          rw [hh]
        · exfalso
          have h2 : (editPhase2 file attrArg valArg off).1 = rStatus.FAILURE := h
          rw [hh] at h2
          cases h2

/-- C8 witness: the no-write-on-failure part applied to an edit whose object
    id is not present in the file. -/
theorem editConfigValue_failure_spec_witness :
    (editConfigValue ("ObjectID a\nFoo v\n".data) ("b".data) ("Foo".data) ("x".data)).2 =
      ("ObjectID a\nFoo v\n".data) :=
  editConfigValue_failure_spec.1 ("ObjectID a\nFoo v\n".data) ("b".data) ("Foo".data)
    ("x".data) (by decide)

/-- takeWhile walks through a block that fully satisfies the predicate. -/
theorem takeWhile_append_all (p : Char → Bool) (x y : List Char)
    (h : ∀ c ∈ x, p c = true) : (x ++ y).takeWhile p = x ++ y.takeWhile p := by
  induction x with
  | nil => rfl
  | cons c rest ih =>
    rw [List.cons_append, List.takeWhile_cons_of_pos (h c (List.mem_cons_self c rest)),
      ih (fun d hd => h d (List.mem_cons_of_mem c hd)), List.cons_append]

/-- dropWhile skips a block that fully satisfies the predicate. -/
theorem dropWhile_append_all (p : Char → Bool) (x y : List Char)
    (h : ∀ c ∈ x, p c = true) : (x ++ y).dropWhile p = y.dropWhile p := by
  induction x with
  | nil => rfl
  | cons c rest ih =>
    rw [List.cons_append, List.dropWhile_cons_of_pos (h c (List.mem_cons_self c rest)),
      ih (fun d hd => h d (List.mem_cons_of_mem c hd))]

/-- takeWhile stops immediately on a block that fully fails the predicate. -/
theorem takeWhile_eq_nil_all (p : Char → Bool) (x : List Char)
    (h : ∀ c ∈ x, p c = false) : x.takeWhile p = [] := by
  cases x with
  | nil => rfl
  | cons c rest =>
    exact List.takeWhile_cons_of_neg (by rw [h c (List.mem_cons_self c rest)]; simp)

/-- Splitting at newlines peels off a newline-free prefix line. -/
theorem splitOnNl_append (x y : List Char) (hx : ∀ c ∈ x, c ≠ '\n') :
    splitOnNl (x ++ '\n' :: y) = x :: splitOnNl y := by
  induction x with
  | nil =>
    show splitOnNl ('\n' :: y) = [] :: splitOnNl y
    rw [splitOnNl, if_pos rfl]
  | cons c rest ih =>
    rw [List.cons_append, splitOnNl, if_neg (hx c (List.mem_cons_self c rest)),
      ih (fun d hd => hx d (List.mem_cons_of_mem c hd))]

/-- A list is a prefix of itself followed by anything. -/
theorem isPrefixOf_append_self (l t : List Char) : l.isPrefixOf (l ++ t) = true := by
  rw [List.isPrefixOf_iff_prefix]
  exact List.prefix_append l t

/-- strstr finds a needle sitting at the very front. -/
theorem strstrIdx_at_head (hay n : List Char) (hn : n ≠ [])
    (h : n.isPrefixOf hay = true) : strstrIdx hay n = some 0 := by
  cases n with
  | nil => exact absurd rfl hn
  | cons d ns =>
    cases hay with
    | nil => simp [List.isPrefixOf] at h
    | cons c rest =>
      unfold strstrIdx
      rw [if_pos h]

/-- strstr advances past a position where the needle does not match. -/
theorem strstrIdx_skip_head (c : Char) (rest n : List Char)
    (h : ¬n.isPrefixOf (c :: rest) = true) :
    strstrIdx (c :: rest) n = (strstrIdx rest n).map (fun k => k + 1) := by
  cases n with
  | nil => simp [List.isPrefixOf] at h
  | cons d ns =>
    rw [strstrIdx, if_neg h]

/-- Whitespace bytes are separator-stop bytes. -/
theorem isWsC_imp_isSepStopC (c : Char) (h : isWsC c = true) : isSepStopC c = true := by
  unfold isWsC at h
  unfold isSepStopC
  simp at h ⊢
  tauto

/-- The separator-run predicate of the editor's save loop equals the
    separator-stop predicate. -/
theorem sepRunChar_eq_sepStop (c : Char) : (c == '=' || isWsC c) = isSepStopC c := by
  unfold isWsC isSepStopC
  cases h1 : c == '=' <;> cases h2 : c == ' ' <;> cases h3 : c == '\t' <;> simp [h1, h2, h3]

/-- C7 counterexample: replacing the value of ObjectEnabled for object a
    with its current value true does not leave the file byte-identical: the
    first strstr hit for the keyword is inside the ObjectDescription value,
    so that line is rewritten instead. -/
theorem editConfigValue_noop_counterexample :
    editConfigValue embeddedKeywordFile ("a".data) ("ObjectEnabled".data) ("true".data) =
      (rStatus.SUCCESS, embeddedKeywordResult) ∧
    embeddedKeywordResult ≠ embeddedKeywordFile := by
  decide

/-- Chars that are not separator stops are not whitespace. -/
theorem not_sepStop_not_ws (c : Char) (h : isSepStopC c = false) : isWsC c = false := by
  cases hws : isWsC c
  · rfl
  · exact absurd (isWsC_imp_isSepStopC c hws) (by simp [h])

/-- The id scan accepts the line ObjectID i and records offset 9 + length i. -/
theorem scanIdLine_id_line (i : List Char) (hiNe : i ≠ [])
    (hiC : ∀ c ∈ i, isSepStopC c = false ∧ c ≠ '\n') (found : Option Nat) :
    scanIdLine i 0 ("ObjectID ".data ++ i) found =
      Except.ok (some (0 + 8 + 1 + i.length)) := by
  have hiWs : ∀ c ∈ i, isWsC c = false := fun c hc => not_sepStop_not_ws c (hiC c hc).1
  have hlw : ("ObjectID ".data ++ i).dropWhile isWsC = "ObjectID ".data ++ i := by
    rw [show ("ObjectID ".data ++ i : List Char) = 'O' :: ("bjectID ".data ++ i) from rfl]
    rw [List.dropWhile_cons_of_neg (by decide)]
  have hsplit9 : ("ObjectID ".data ++ i : List Char) = kwObjectID ++ (' ' :: i) := by
    rw [show ("ObjectID ".data : List Char) = kwObjectID ++ [' '] from by decide]
    simp
  have hpre : kwObjectID.isPrefixOf ("ObjectID ".data ++ i) = true := by
    rw [hsplit9]
    exact isPrefixOf_append_self kwObjectID (' ' :: i)
  have htake : (("ObjectID ".data ++ i).takeWhile (fun c => !isSepStopC c)).length = 8 := by
    rw [hsplit9, takeWhile_append_all _ _ _ (by decide)]
    rw [List.takeWhile_cons_of_neg (by decide)]
    simp [kwObjectID]
  have hget8 : ("ObjectID ".data ++ i).get? 8 = some ' ' := by
    rw [hsplit9, List.get?_append_right (by simp [kwObjectID])]
    simp [kwObjectID]
  have hdrop8 : ("ObjectID ".data ++ i).drop 8 = ' ' :: i := by
    rw [hsplit9]
    rw [show (8 : Nat) = kwObjectID.length from by decide]
    rw [List.drop_left]
  have hnws : ((("ObjectID ".data ++ i).drop 8).takeWhile isWsC).length = 1 := by
    rw [hdrop8, List.takeWhile_cons_of_pos (by decide), takeWhile_eq_nil_all isWsC i hiWs]
    rfl
  have hdrop9 : ("ObjectID ".data ++ i).drop 9 = i := by
    rw [hsplit9]
    rw [show (kwObjectID ++ (' ' :: i) : List Char) = (kwObjectID ++ [' ']) ++ i from by simp]
    rw [show (9 : Nat) = (kwObjectID ++ [' ']).length from by decide]
    rw [List.drop_left]
  simp only [scanIdLine]
  rw [hlw, hpre]
  simp only [if_true]
  rw [htake, hget8]
  rw [if_neg (show ¬(some ' ' = some '=') by decide)]
  rw [hnws]
  rw [show (8 + 1 : Nat) = 9 from rfl]
  rw [hdrop9]
  rw [if_neg hiNe, if_pos rfl]

/-- The id scan passes over a line that does not begin with ObjectID. -/
theorem scanIdLine_other_line (idArg line : List Char) (off : Nat) (found : Option Nat)
    (h : kwObjectID.isPrefixOf (line.dropWhile isWsC) = false) :
    scanIdLine idArg off line found = Except.ok found := by
  simp only [scanIdLine]
  rw [h]
  simp

/-- A two-line newline-terminated buffer yields exactly its two lines. -/
theorem cLines_two (l1 l2 : List Char) (h1 : ∀ c ∈ l1, c ≠ '\n') (h2 : ∀ c ∈ l2, c ≠ '\n') :
    cLines (l1 ++ '\n' :: (l2 ++ ['\n'])) = [l1, l2] := by
  unfold cLines
  rw [splitOnNl_append _ _ h1]
  rw [show (l2 ++ ['\n'] : List Char) = l2 ++ '\n' :: [] from rfl]
  rw [splitOnNl_append _ _ h2]
  rw [show splitOnNl ([] : List Char) = [[]] from rfl]
  simp [List.getLast?, List.dropLast]

/-- Separator-run bytes are never the newline. -/
theorem sepRunChar_ne_nl (c : Char) (h : (c == '=' || isWsC c) = true) : c ≠ '\n' := by
  intro he
  subst he
  exact absurd h (by decide)

/-- The replacement phase of the no-op edit on the single-object file
    family rebuilds the file byte for byte. -/
theorem editPhase2_mk (i a sep v : List Char)
    (haNe : a ≠ [])
    (haC : ∀ c ∈ a, isSepStopC c = false ∧ c ≠ '\n')
    (hsepNe : sep ≠ [])
    (hsepRun : ∀ c ∈ sep, (c == '=' || isWsC c) = true)
    (hv : ∀ c ∈ v, c ≠ '\n')
    (hv0 : ∀ c ∈ v.take 1, (c == '=' || isWsC c) = false)
    (hObj : strstrIdx ('\n' :: ((a ++ sep ++ v) ++ ['\n'])) kwObjectID = none) :
    editPhase2 (mkConfFile i a sep v) a v (0 + 8 + 1 + i.length) =
      (rStatus.SUCCESS, mkConfFile i a sep v) := by
  cases a with
  | nil => exact absurd rfl haNe
  | cons a0 aRest =>
  cases sep with
  | nil => exact absurd rfl hsepNe
  | cons s0 sRest =>
  have hs0run : (s0 == '=' || isWsC s0) = true :=
    hsepRun s0 (List.mem_cons_self s0 sRest)
  have hs0stop : isSepStopC s0 = true := by
    rw [← sepRunChar_eq_sepStop]
    exact hs0run
  have hs0nl : s0 ≠ '\n' := sepRunChar_ne_nl s0 hs0run
  have hFshape : mkConfFile i (a0 :: aRest) (s0 :: sRest) v =
      ("ObjectID ".data ++ i) ++ '\n' :: (((a0 :: aRest) ++ (s0 :: sRest) ++ v) ++ ['\n']) := rfl
  have hL1len : ("ObjectID ".data ++ i).length = 0 + 8 + 1 + i.length := by
    rw [List.length_append]
    rw [show ("ObjectID ".data).length = 9 from by decide]
  have hregion : (mkConfFile i (a0 :: aRest) (s0 :: sRest) v).drop (0 + 8 + 1 + i.length) =
      '\n' :: (((a0 :: aRest) ++ (s0 :: sRest) ++ v) ++ ['\n']) := by
    rw [hFshape, ← hL1len]
    exact List.drop_left _ _
  have hattr : strstrIdx ('\n' :: (((a0 :: aRest) ++ (s0 :: sRest) ++ v) ++ ['\n']))
      (a0 :: aRest) = some 1 := by
    have ha0nl : (a0 == '\n') = false :=
      beq_eq_false_iff_ne.mpr (haC a0 (List.mem_cons_self a0 aRest)).2
    have hnp : ¬(a0 :: aRest).isPrefixOf
        ('\n' :: (((a0 :: aRest) ++ (s0 :: sRest) ++ v) ++ ['\n'])) = true := by
      show ¬((a0 == '\n') && aRest.isPrefixOf (((a0 :: aRest) ++ (s0 :: sRest) ++ v) ++ ['\n'])) = true
      rw [ha0nl]
      simp
    rw [strstrIdx_skip_head _ _ _ hnp]
    rw [strstrIdx_at_head _ _ (by simp) (by
      rw [show (((a0 :: aRest) ++ (s0 :: sRest) ++ v) ++ ['\n'] : List Char) =
        (a0 :: aRest) ++ ((s0 :: sRest) ++ v ++ ['\n']) from by simp]
      exact isPrefixOf_append_self _ _)]
    rfl
  have hcomment : (mkConfFile i (a0 :: aRest) (s0 :: sRest) v).get?
      (0 + 8 + 1 + i.length + 1 - 1) = some '\n' := by
    rw [hFshape]
    rw [show (0 + 8 + 1 + i.length + 1 - 1 : Nat) = ("ObjectID ".data ++ i).length from by omega]
    rw [List.get?_append_right (le_refl _)]
    simp
  have htail1 : (mkConfFile i (a0 :: aRest) (s0 :: sRest) v).drop
      (0 + 8 + 1 + i.length + 1 + 1) = aRest ++ ((s0 :: sRest) ++ (v ++ ['\n'])) := by
    rw [hFshape]
    rw [show (0 + 8 + 1 + i.length + 1 + 1 : Nat) = ("ObjectID ".data ++ i).length + 2 from by omega]
    rw [List.drop_append 2]
    show ((((a0 :: aRest) ++ (s0 :: sRest) ++ v) ++ ['\n']).drop 1) = _
    rw [show (((a0 :: aRest) ++ (s0 :: sRest) ++ v) ++ ['\n'] : List Char) =
      a0 :: (aRest ++ ((s0 :: sRest) ++ (v ++ ['\n']))) from by simp]
    rfl
  have haRest : ∀ c ∈ aRest, isSepStopC c = false ∧ c ≠ '\n' :=
    fun c hc => haC c (List.mem_cons_of_mem a0 hc)
  have hq0 : ¬((!isSepStopC s0 && s0 != '\n') = true) := by
    rw [hs0stop]
    simp
  have hi1 : ((aRest ++ ((s0 :: sRest) ++ (v ++ ['\n']))).takeWhile
      (fun c => !isSepStopC c && c != '\n')).length = aRest.length := by
    rw [takeWhile_append_all _ _ _ (by
      intro c hc
      show (!isSepStopC c && c != '\n') = true
      rw [(haRest c hc).1]
      simp only [Bool.not_false, Bool.true_and, bne_iff_ne]
      exact (haRest c hc).2)]
    rw [List.cons_append]
    rw [List.takeWhile_cons_of_neg (p := fun c => !isSepStopC c && c != '\n') hq0]
    simp
  have hgeti1 : (aRest ++ ((s0 :: sRest) ++ (v ++ ['\n']))).get? aRest.length = some s0 := by
    rw [List.get?_append_right (le_refl _)]
    simp
  have hdropA : (aRest ++ ((s0 :: sRest) ++ (v ++ ['\n']))).drop aRest.length =
      (s0 :: sRest) ++ (v ++ ['\n']) := List.drop_left _ _
  have htakeSep : (((s0 :: sRest) ++ (v ++ ['\n']))).takeWhile
      (fun d => d == '=' || isWsC d) = s0 :: sRest := by
    rw [takeWhile_append_all _ _ _ hsepRun]
    cases v with
    | nil =>
      rw [show (([] : List Char) ++ ['\n']) = ['\n'] from rfl]
      rw [List.takeWhile_cons_of_neg (p := fun d => d == '=' || isWsC d)
        (show ¬(('\n' == '=' || isWsC '\n') = true) from by decide)]
      simp
    | cons v0 vr =>
      rw [show ((v0 :: vr : List Char) ++ ['\n']) = v0 :: (vr ++ ['\n']) from rfl]
      rw [List.takeWhile_cons_of_neg (p := fun d => d == '=' || isWsC d)
        (show ¬((v0 == '=' || isWsC v0) = true) from by
          rw [hv0 v0 (by simp)]
          simp)]
      simp
  have hdropSep : (((s0 :: sRest) ++ (v ++ ['\n']))).dropWhile
      (fun d => d == '=' || isWsC d) = v ++ ['\n'] := by
    rw [dropWhile_append_all _ _ _ hsepRun]
    cases v with
    | nil =>
      rw [show (([] : List Char) ++ ['\n']) = ['\n'] from rfl]
      rw [List.dropWhile_cons_of_neg (p := fun d => d == '=' || isWsC d)
        (show ¬(('\n' == '=' || isWsC '\n') = true) from by decide)]
    | cons v0 vr =>
      rw [show ((v0 :: vr : List Char) ++ ['\n']) = v0 :: (vr ++ ['\n']) from rfl]
      rw [List.dropWhile_cons_of_neg (p := fun d => d == '=' || isWsC d)
        (show ¬((v0 == '=' || isWsC v0) = true) from by
          rw [hv0 v0 (by simp)]
          simp)]
  have hhalf2 : (v ++ ['\n']).dropWhile (fun d => d != '\n') = ['\n'] := by
    rw [dropWhile_append_all _ _ _ (by
      intro c hc
      show (c != '\n') = true
      simp only [bne_iff_ne]
      exact hv c hc)]
    rw [List.dropWhile_cons_of_neg (p := fun d => d != '\n')
      (show ¬(('\n' != '\n') = true) from by decide)]
  have htake : (mkConfFile i (a0 :: aRest) (s0 :: sRest) v).take (0 + 8 + 1 + i.length + 1) =
      ("ObjectID ".data ++ i) ++ ['\n'] := by
    rw [hFshape]
    rw [show ((("ObjectID ".data ++ i)) ++ '\n' :: (((a0 :: aRest) ++ (s0 :: sRest) ++ v) ++ ['\n']) : List Char) =
      (("ObjectID ".data ++ i) ++ ['\n']) ++ (((a0 :: aRest) ++ (s0 :: sRest) ++ v) ++ ['\n']) from by simp]
    rw [show (0 + 8 + 1 + i.length + 1 : Nat) = (("ObjectID ".data ++ i) ++ ['\n']).length from by
      rw [List.length_append, hL1len]
      simp]
    exact List.take_left _ _
  simp only [editPhase2, hregion, hObj, hattr, htail1, hi1, hgeti1, hcomment]
  rw [if_neg (show ¬(some '\n' = some '#') from by decide)]
  rw [hdropA, htakeSep, hdropSep, hhalf2]
  rw [if_neg hs0nl]
  rw [htake]
  rw [hFshape]
  simp

/-- The whole id scan of the two-line family finds the id on line one. -/
theorem scanLines_two (i l2 : List Char) (hiNe : i ≠ [])
    (hiC : ∀ c ∈ i, isSepStopC c = false ∧ c ≠ '\n')
    (hl2 : kwObjectID.isPrefixOf (l2.dropWhile isWsC) = false) :
    scanLines i [("ObjectID ".data ++ i), l2] 0 none =
      Except.ok (some (0 + 8 + 1 + i.length)) := by
  have h1 := scanIdLine_id_line i hiNe hiC none
  have h2 := scanIdLine_other_line i l2 (0 + ("ObjectID ".data ++ i).length + 1)
    (some (0 + 8 + 1 + i.length)) hl2
  show (match scanIdLine i 0 ("ObjectID ".data ++ i) none with
    | Except.error e => Except.error e
    | Except.ok f2 => scanLines i [l2] (0 + ("ObjectID ".data ++ i).length + 1) f2) =
    Except.ok (some (0 + 8 + 1 + i.length))
  rw [h1]
  show (match scanIdLine i (0 + ("ObjectID ".data ++ i).length + 1) l2
      (some (0 + 8 + 1 + i.length)) with
    | Except.error e => Except.error e
    | Except.ok f2 =>
      scanLines i [] (0 + ("ObjectID ".data ++ i).length + 1 + l2.length + 1) f2) =
    Except.ok (some (0 + 8 + 1 + i.length))
  rw [h2]
  rfl

/-- C7 amended: the no-op edit is the identity on the file provided the
    attribute keyword does not occur earlier in the object's section than
    its own line and the section does not contain the literal ObjectID: for
    every file of the shape ObjectID i newline, then the attribute line
    a sep v newline (ids and keywords free of separators and newlines, sep a
    run of spaces/tabs or a single =, v not beginning with a separator
    byte), EditConfigValue(i, a, v) with v the attribute's current value
    returns SUCCESS and writes back the identical bytes, preserving the
    exact separator run. -/
theorem editConfigValue_noop_spec (i a sep v : List Char)
    (hiNe : i ≠ [])
    (hiC : ∀ c ∈ i, isSepStopC c = false ∧ c ≠ '\n')
    (haNe : a ≠ [])
    (haC : ∀ c ∈ a, isSepStopC c = false ∧ c ≠ '\n')
    (hsep : sep = ['='] ∨ (sep ≠ [] ∧ ∀ c ∈ sep, isWsC c = true))
    (hv : ∀ c ∈ v, c ≠ '\n')
    (hv0 : ∀ c ∈ v.take 1, (c == '=' || isWsC c) = false)
    (hkw2 : kwObjectID.isPrefixOf (a ++ sep ++ v) = false)
    (hObj : strstrIdx ('\n' :: ((a ++ sep ++ v) ++ ['\n'])) kwObjectID = none) :
    editConfigValue (mkConfFile i a sep v) i a v =
      (rStatus.SUCCESS, mkConfFile i a sep v) := by
  have hsepNe : sep ≠ [] := by
    rcases hsep with rfl | ⟨hne, _⟩
    · simp
    · exact hne
  have hsepRun : ∀ c ∈ sep, (c == '=' || isWsC c) = true := by
    rcases hsep with rfl | ⟨_, hws⟩
    · intro c hc
      simp at hc
      subst hc
      decide
    · intro c hc
      rw [hws c hc]
      simp
  have hL1nl : ∀ c ∈ ("ObjectID ".data ++ i), c ≠ '\n' := by
    intro c hc
    rcases List.mem_append.mp hc with h | h
    · have hk : ∀ c ∈ ("ObjectID ".data : List Char), c ≠ '\n' := by decide
      exact hk c h
    · exact (hiC c h).2
  have hline2nl : ∀ c ∈ (a ++ sep ++ v), c ≠ '\n' := by
    intro c hc
    rcases List.mem_append.mp hc with h2 | hv2
    · rcases List.mem_append.mp h2 with ha2 | hs2
      · exact (haC c ha2).2
      · exact sepRunChar_ne_nl c (hsepRun c hs2)
    · exact hv c hv2
  have hline2ws : (a ++ sep ++ v).dropWhile isWsC = a ++ sep ++ v := by
    cases a with
    | nil => exact absurd rfl haNe
    | cons a0 aRest =>
      rw [show ((a0 :: aRest) ++ sep ++ v : List Char) = a0 :: (aRest ++ sep ++ v) from by simp]
      rw [List.dropWhile_cons_of_neg (by
        rw [not_sepStop_not_ws a0 (haC a0 (List.mem_cons_self a0 aRest)).1]
        simp)]
  have hFne : mkConfFile i a sep v ≠ [] := by
    rw [show mkConfFile i a sep v =
      'O' :: (("bjectID ".data ++ i) ++ '\n' :: ((a ++ sep ++ v) ++ ['\n'])) from rfl]
    exact List.cons_ne_nil _ _
  have hclines : cLines (mkConfFile i a sep v) =
      [("ObjectID ".data ++ i), (a ++ sep ++ v)] := cLines_two _ _ hL1nl hline2nl
  have hscan : scanLines i (cLines (mkConfFile i a sep v)) 0 none =
      Except.ok (some (0 + 8 + 1 + i.length)) := by
    rw [hclines]
    refine scanLines_two i (a ++ sep ++ v) hiNe hiC ?_
    rw [hline2ws]
    exact hkw2
  unfold editConfigValue
  rw [if_neg hFne, hscan]
  exact editPhase2_mk i a sep v haNe haC hsepNe hsepRun hv hv0 hObj


/-- C7 witness: the no-op edit of ObjectStartCommand with a space-tab
    separator run, applied through the amended theorem. -/
theorem editConfigValue_noop_spec_witness :
    editConfigValue (mkConfFile ("svc".data) ("ObjectStartCommand".data) [' ', '\t']
        ("/bin/a".data)) ("svc".data) ("ObjectStartCommand".data) ("/bin/a".data) =
      (rStatus.SUCCESS,
        mkConfFile ("svc".data) ("ObjectStartCommand".data) [' ', '\t'] ("/bin/a".data)) :=
  editConfigValue_noop_spec ("svc".data) ("ObjectStartCommand".data) [' ', '\t'] ("/bin/a".data)
    (by decide) (by decide) (by decide) (by decide) (by decide) (by decide) (by decide)
    (by decide) (by decide)

end Epoch
